import Mathlib

/-!
Shallow embedding of the grounded detection and verification pipeline of
`databridge_core` (files `detection/_grounded.py`, `detection/_feedback.py`,
`detection/_verifier.py`, `detection/_graph.py`, `detection/_rules.py`,
`detection/_types.py`), together with theorems settling the frozen claims
about it.

Python floats are modelled by exact rationals (`ℚ`); the SPRT log-likelihood
ratio, which the source keeps as a float sum of `math.log` terms, is modelled
by the pair (findings_count, rows_checked) together with the real-valued
function `llrReal`; the float comparisons `llr <= B` / `llr >= A` are
modelled by the decidable natural-number conditions `sprtCleanCond` /
`sprtAnomCond`, proved equivalent to the real-log comparisons in
`sprtCleanCond_iff` / `sprtAnomCond_iff` below.  Regular expressions are
abstracted by an opaque-to-the-model search function (`RegexM`), and
`re.compile` by a caller-supplied partial compile map.
-/

namespace Databridge

/-- Severity enum from `_types.py` (`class Severity`). -/
inductive Severity where
  | critical | high | medium | low | info
deriving DecidableEq, Repr

/-- String value of a `Severity`, as produced by pydantic `model_dump`. -/
def Severity.value : Severity → String
  | .critical => "critical"
  | .high => "high"
  | .medium => "medium"
  | .low => "low"
  | .info => "info"

/-- FindingType enum from `_types.py` (`class FindingType`). -/
inductive FindingType where
  | sign_reversal | rounding_discrepancy | missing_account | duplicate_account
  | hierarchy_break | naming_violation | balance_mismatch | formula_anomaly
  | classification_error | custom
deriving DecidableEq, Repr

/-- String value of a `FindingType`, as produced by pydantic `model_dump`. -/
def FindingType.value : FindingType → String
  | .sign_reversal => "sign_reversal"
  | .rounding_discrepancy => "rounding_discrepancy"
  | .missing_account => "missing_account"
  | .duplicate_account => "duplicate_account"
  | .hierarchy_break => "hierarchy_break"
  | .naming_violation => "naming_violation"
  | .balance_mismatch => "balance_mismatch"
  | .formula_anomaly => "formula_anomaly"
  | .classification_error => "classification_error"
  | .custom => "custom"

/-! ## SPRT (Sequential Probability Ratio Test), `_grounded.py` lines 55-117

Constants: `_SPRT_P0 = 0.001`, `_SPRT_P1 = 0.01`, `_SPRT_ALPHA = 0.05`,
`_SPRT_BETA = 0.05`, `_SPRT_MIN_ROWS = 100`,
`_SPRT_A = log((1-beta)/alpha)`, `_SPRT_B = log(beta/(1-alpha))`. -/

noncomputable section SPRTReal

/-- `_SPRT_P0 = 0.001`. -/
def sprtP0 : ℝ := 1 / 1000

/-- `_SPRT_P1 = 0.01`. -/
def sprtP1 : ℝ := 1 / 100

/-- `_SPRT_ALPHA = 0.05`. -/
def sprtAlpha : ℝ := 1 / 20

/-- `_SPRT_BETA = 0.05`. -/
def sprtBeta : ℝ := 1 / 20

/-- `_SPRT_A = math.log((1 - _SPRT_BETA) / _SPRT_ALPHA)` (upper bound, anomalous). -/
def sprtA : ℝ := Real.log ((1 - sprtBeta) / sprtAlpha)

/-- `_SPRT_B = math.log(_SPRT_BETA / (1 - _SPRT_ALPHA))` (lower bound, clean). -/
def sprtB : ℝ := Real.log (sprtBeta / (1 - sprtAlpha))

/-- The log-likelihood ratio `_llr` after `n` rows of which `f` produced a
finding: each finding row adds `log(P1/P0)`, each clean row adds
`log((1-P1)/(1-P0))` (`_SPRTState.update`). -/
def llrReal (f n : ℕ) : ℝ :=
  f * Real.log (sprtP1 / sprtP0) + (n - f : ℕ) * Real.log ((1 - sprtP1) / (1 - sprtP0))

end SPRTReal

/-- `_SPRT_MIN_ROWS = 100`. -/
def sprtMinRows : ℕ := 100

/-- Exact decidable form of the float test `llr <= _SPRT_B` after `f` finding
rows and `m` clean rows; proved equivalent to the real-log comparison in
`sprtCleanCond_iff`. -/
def sprtCleanCond (f m : ℕ) : Prop := 19 * (10 ^ f * 110 ^ m) ≤ 111 ^ m

/-- Exact decidable form of the float test `llr >= _SPRT_A` after `f` finding
rows and `m` clean rows; proved equivalent to the real-log comparison in
`sprtAnomCond_iff`. -/
def sprtAnomCond (f m : ℕ) : Prop := 19 * 111 ^ m ≤ 10 ^ f * 110 ^ m

instance (f m : ℕ) : Decidable (sprtCleanCond f m) := by
  unfold sprtCleanCond; infer_instance

instance (f m : ℕ) : Decidable (sprtAnomCond f m) := by
  unfold sprtAnomCond; infer_instance

/-- The decision slot of `_SPRTState` (`None`, `"clean"`, `"anomalous"`). -/
inductive SPRTDecision where
  | clean | anomalous
deriving DecidableEq, Repr

/-- `_SPRTState` from `_grounded.py`: the `_llr` float is represented exactly
by the counts (`llrReal findings_count rows_checked` is its value). -/
structure SPRTState where
  findings_count : ℕ
  rows_checked : ℕ
  decision : Option SPRTDecision
deriving DecidableEq, Repr

/-- Fresh `_SPRTState()` (`__init__`). -/
def SPRTState.init : SPRTState := ⟨0, 0, none⟩

/-- `_SPRTState.update(has_finding)`: increment counters, add the row's
log-likelihood term, and decide only once `rows_checked >= _SPRT_MIN_ROWS`
while no decision has been made (`llr <= B` → clean, `llr >= A` → anomalous). -/
def SPRTState.update (s : SPRTState) (has_finding : Bool) : SPRTState :=
  let f := if has_finding then s.findings_count + 1 else s.findings_count
  let n := s.rows_checked + 1
  let d :=
    if sprtMinRows ≤ n ∧ s.decision = none then
      if sprtCleanCond f (n - f) then some .clean
      else if sprtAnomCond f (n - f) then some .anomalous
      else none
    else s.decision
  ⟨f, n, d⟩

/-- Run `update` over a list of per-row `has_finding` flags. -/
def SPRTState.run (flags : List Bool) : SPRTState :=
  flags.foldl SPRTState.update SPRTState.init

/-! ## Rule compilation and row scanning, `_grounded.py` lines 525-669

A compiled regular expression is abstracted by its search function
(`re.Pattern.search` returning the matched substring or nothing); `re.compile`
is abstracted by a caller-supplied map `String → Option RegexM` (`none` models
`re.error`). -/

/-- Python `str.lower()` (`String.toLower` as a reducible list map). -/
def pyLower (s : String) : String := ⟨s.data.map Char.toLower⟩

/-- Python `str.strip()`. -/
def pyStrip (s : String) : String :=
  ⟨((s.data.dropWhile Char.isWhitespace).reverse.dropWhile Char.isWhitespace).reverse⟩

/-- Abstraction of a compiled `re.Pattern`: `search` returns `match.group(0)`. -/
structure RegexM where
  search : String → Option String

/-- `DetectionRule` from `_types.py` (the pydantic model; the fields not read
by the detection code paths under study are kept verbatim where used). -/
structure DetectionRule where
  rule_id : String
  name : String
  standard : String
  finding_type : FindingType
  pattern : String
  field_targets : List String
  severity : Severity
  description : String
  evidence_nodes : List String
  kb_source_file : String
  confidence : ℚ
deriving DecidableEq, Repr

/-- A parsed CSV row: `csv.DictReader` row as an association list. -/
abbrev Row := List (String × String)

/-- `row.get(field, "")`. -/
def Row.get (row : Row) (field : String) : String :=
  ((row.find? (fun p => p.1 = field)).map Prod.snd).getD ""

/-- `header_lower = {h.lower(): h for h in headers}` followed by
`header_lower.get(key)`: on duplicate lowered names the later header wins. -/
def headerLower (headers : List String) (key : String) : Option String :=
  headers.reverse.find? (fun h => (pyLower h) = key)

/-- `_truncate(text, max_len)` from `_grounded.py`. -/
def truncate (text : String) (max_len : ℕ) : String :=
  if text.length ≤ max_len then text
  else text.take (max_len - 3) ++ "..."

/-- `GroundedFinding` from `_types.py`, restricted to the deterministically
computed fields (`finding_id` is a fresh UUID and `timestamp` a wall-clock
reading in the source; `graphrag_results` is only touched by the external
enrichment collaborators). -/
structure GroundedFinding where
  finding_type : FindingType
  severity : Severity
  account : String
  row_index : ℤ
  field : String
  matched_value : String
  evidence : String
  kb_node_ids : List String
  confidence : ℚ
  grounding_context : String
  rule_id : String
  rule_name : String
deriving DecidableEq, Repr

/-- One entry of `_compile_rules`' output: `(rule, compiled_regex, resolved_fields)`. -/
structure CompiledRule where
  rule : DetectionRule
  regex : RegexM
  fields : List String

/-- Resolution of one rule's `field_targets` against the CSV headers inside
`_compile_rules`: exact match first, then case-insensitive via `header_lower`. -/
def resolveTargets (field_targets headers : List String) : List String :=
  field_targets.filterMap (fun target =>
    if target ∈ headers then some target
    else headerLower headers (pyLower target))

/-- `_compile_rules(rules, headers, min_confidence)`: skip empty patterns,
rules below the confidence floor, and invalid regexes; a rule whose non-empty
`field_targets` resolve to no actual column is dropped entirely (no all-column
fallback); a rule with no declared targets scans every column. -/
def compileRules (compile : String → Option RegexM) (rules : List DetectionRule)
    (headers : List String) (min_confidence : ℚ) : List CompiledRule :=
  rules.filterMap (fun rule =>
    if rule.pattern = "" then none
    else if rule.confidence < min_confidence then none
    else match compile rule.pattern with
      | none => none
      | some regex =>
        if rule.field_targets ≠ [] then
          let resolved := resolveTargets rule.field_targets headers
          if resolved = [] then none
          else some ⟨rule, regex, resolved⟩
        else some ⟨rule, regex, headers⟩)

/-- `_ACCOUNT_COLUMNS` priority list inside `_extract_account`. -/
def accountColumns : List String :=
  ["account", "account_code", "account_name", "acct", "acct_code",
   "account_id", "acct_id", "gl_account", "account_number",
   "name", "description", "label"]

/-- `_extract_account(row, headers)`. -/
def extractAccount (row : Row) (headers : List String) : String :=
  match accountColumns.findSome? (fun col =>
      match headerLower headers col with
      | none => none
      | some actual =>
        let val := row.get actual
        if val ≠ "" then some (truncate val 120) else none) with
  | some acct => acct
  | none =>
    match headers.findSome? (fun h =>
        let val := row.get h
        if val ≠ "" then some (truncate val 120) else none) with
    | some acct => acct
    | none => ""

/-- The finding built at a match inside `_check_row`. -/
def mkRowFinding (rule : DetectionRule) (account : String) (row_idx : ℕ)
    (field value matched : String) : GroundedFinding :=
  { finding_type := rule.finding_type
    severity := rule.severity
    account := account
    row_index := (row_idx : ℤ)
    field := field
    matched_value := matched
    evidence := "Rule '" ++ rule.name ++ "' matched pattern /" ++ rule.pattern ++
      "/ in field '" ++ field ++ "' (value: '" ++ truncate value 80 ++ "')"
    kb_node_ids := rule.evidence_nodes
    confidence := rule.confidence
    grounding_context := rule.description
    rule_id := rule.rule_id
    rule_name := rule.name }

/-- `_check_row(row_idx, row, headers, compiled_rules)`: each compiled rule
contributes at most one finding, from the first of its resolved fields whose
non-empty value the regex matches. -/
def checkRow (row_idx : ℕ) (row : Row) (headers : List String)
    (compiled_rules : List CompiledRule) : List GroundedFinding :=
  let account := extractAccount row headers
  compiled_rules.filterMap (fun cr =>
    cr.fields.findSome? (fun field =>
      let value := row.get field
      if value = "" then none
      else (cr.regex.search value).map (mkRowFinding cr.rule account row_idx field value)))

/-! ## Feedback filter, `_feedback.py` -/

/-- `_SUPPRESS_THRESHOLD = 3`. -/
def suppressThreshold : ℕ := 3

/-- `_CONFIRM_BOOST = 0.05`. -/
def confirmBoost : ℚ := 5 / 100

/-- `_DISMISS_PENALTY = 0.08`. -/
def dismissPenalty : ℚ := 8 / 100

/-- `_MIN_CONFIDENCE = 0.05`. -/
def minConfidenceClamp : ℚ := 5 / 100

/-- `_MAX_CONFIDENCE = 1.0`. -/
def maxConfidenceClamp : ℚ := 1

/-- A feedback ledger line, restricted to the fields `_build_tallies` reads. -/
structure FeedbackRecord where
  rule_id : String
  finding_type : String
  action : String
deriving DecidableEq, Repr

/-- Whether a ledger record contributes to the tally of `(rule_id, ft)`:
`_build_tallies` skips records with an empty `rule_id`. -/
def recordHits (rule_id ft : String) (r : FeedbackRecord) : Bool :=
  r.rule_id ≠ "" && r.rule_id = rule_id && r.finding_type = ft

/-- `tally["confirmed"]` for key `(rule_id, ft)`. -/
def confirmedCount (records : List FeedbackRecord) (rule_id ft : String) : ℕ :=
  (records.filter (fun r => recordHits rule_id ft r && r.action = "confirmed")).length

/-- `tally["dismissed"]` for key `(rule_id, ft)`: any action other than
`"confirmed"` counts as dismissed. -/
def dismissedCount (records : List FeedbackRecord) (rule_id ft : String) : ℕ :=
  (records.filter (fun r => recordHits rule_id ft r && r.action ≠ "confirmed")).length

/-- `tallies.get(key) is not None`: some record contributed to the key. -/
def hasTally (records : List FeedbackRecord) (rule_id ft : String) : Bool :=
  records.any (recordHits rule_id ft)

/-- Round-half-to-even to an integer, the semantics of Python's `round`. -/
def roundHalfEven (q : ℚ) : ℤ :=
  let fl := ⌊q⌋
  let frac := q - fl
  if frac < 1 / 2 then fl
  else if 1 / 2 < frac then fl + 1
  else if fl % 2 = 0 then fl else fl + 1

/-- Python `round(q, 4)`. -/
def pyRound4 (q : ℚ) : ℚ := (roundHalfEven (q * 10000) : ℚ) / 10000

/-- The per-finding body of the loop in `apply_feedback_filter`: pass through
when the key has no tally, drop when dismissed more than `_SUPPRESS_THRESHOLD`
times with zero confirmations, otherwise adjust the confidence by the net
tally, clamp to `[_MIN_CONFIDENCE, _MAX_CONFIDENCE]` and round to 4 digits. -/
def feedbackStep (records : List FeedbackRecord) (f : GroundedFinding) :
    Option GroundedFinding :=
  if ¬ hasTally records f.rule_id f.finding_type.value then some f
  else
    let confirmed := confirmedCount records f.rule_id f.finding_type.value
    let dismissed := dismissedCount records f.rule_id f.finding_type.value
    if suppressThreshold < dismissed ∧ confirmed = 0 then none
    else
      let net : ℤ := (confirmed : ℤ) - (dismissed : ℤ)
      let adjustment : ℚ := if 0 ≤ net then net * confirmBoost else net * dismissPenalty
      let new_confidence := max minConfidenceClamp
        (min maxConfidenceClamp (f.confidence + adjustment))
      some { f with confidence := pyRound4 new_confidence }

/-- `apply_feedback_filter(findings, feedback_path)` with the ledger records
already loaded: an empty ledger returns the findings list unchanged. -/
def applyFeedbackFilter (records : List FeedbackRecord)
    (findings : List GroundedFinding) : List GroundedFinding :=
  if records = [] then findings
  else findings.filterMap (feedbackStep records)

/-! ## The `detect_grounded` entry point, `_grounded.py` lines 120-329

Python keyword-argument binding is modelled explicitly, because
`detect_grounded` invokes `apply_feedback_filter(raw_findings,
feedback_path=..., strategy=...)` while `apply_feedback_filter`'s signature
declares only `(findings, feedback_path)`. -/

/-- The keyword-accepting surface of a Python function signature. -/
structure PySignature where
  params : List String
  hasVarKeyword : Bool

/-- Whether a call binding the given keyword names succeeds (no `TypeError:
unexpected keyword argument`). -/
def acceptsKeywords (sig : PySignature) (kwargs : List String) : Bool :=
  sig.hasVarKeyword || kwargs.all (fun k => sig.params.contains k)

/-- Signature of `apply_feedback_filter` (`_feedback.py` line 102). -/
def applyFeedbackFilterSig : PySignature :=
  { params := ["findings", "feedback_path"], hasVarKeyword := false }

/-- Keyword names at the call site in `detect_grounded` (`_grounded.py`
lines 258-261). -/
def feedbackFilterCallKwargs : List String := ["feedback_path", "strategy"]

/-- `_MAX_FINDINGS_PER_FILE = 500`. -/
def maxFindingsPerFile : ℕ := 500

/-- The mutable state of `detect_grounded`'s scanning loop. -/
structure ScanState where
  raw_findings : List GroundedFinding
  sprt : Option SPRTState
  rows_scanned : ℕ
deriving DecidableEq, Repr

/-- The row loop of `detect_grounded` (lines 207-230): stop at the findings
cap, otherwise scan the row, update the SPRT state when early exit is active,
and stop once it decides "clean" (an "anomalous" decision does not stop). -/
def scanRows (headers : List String) (compiled_rules : List CompiledRule) :
    List (ℕ × Row) → ScanState → ScanState
  | [], st => st
  | (row_idx, row) :: rest, st =>
    if maxFindingsPerFile ≤ st.raw_findings.length then st
    else
      let row_findings := checkRow row_idx row headers compiled_rules
      let st' : ScanState :=
        { raw_findings := st.raw_findings ++ row_findings
          sprt := st.sprt.map (fun s => s.update (decide (0 < row_findings.length)))
          rows_scanned := st.rows_scanned + 1 }
      match st'.sprt with
      | some s => if s.decision = some .clean then st' else scanRows headers compiled_rules rest st'
      | none => scanRows headers compiled_rules rest st'

/-- The outcome of a `detect_grounded` call. -/
inductive DetectOutcome where
  | errorDict (msg : String)
  | emptyResult
  | raised (msg : String)
  | result (findings : List GroundedFinding) (scan : ScanState)
deriving Repr

/-- Whether an outcome is the documented result dict with summary and
findings list. -/
def DetectOutcome.isResult : DetectOutcome → Bool
  | .result _ _ => true
  | _ => false

/-- Input of a `detect_grounded` call, after the external file system and
ledger reads. -/
structure DetectInput where
  fileExists : Bool
  suffixOk : Bool
  rules : List DetectionRule
  rows : List Row
  headers : List String
  feedback_records : List FeedbackRecord
  min_confidence : ℚ
  early_exit : Bool

/-- `detect_grounded`: validation, rule compilation, the SPRT-gated scan, and
the feedback-filter call whose keyword binding is checked explicitly. -/
def detectGrounded (compile : String → Option RegexM) (inp : DetectInput) :
    DetectOutcome :=
  if ¬ inp.fileExists then .errorDict "File not found"
  else if ¬ inp.suffixOk then .errorDict "Unsupported file type"
  else if inp.rules = [] then .emptyResult
  else if inp.rows = [] then .emptyResult
  else
    let compiled := compileRules compile inp.rules inp.headers inp.min_confidence
    let init : ScanState :=
      ⟨[], if inp.early_exit then some SPRTState.init else none, 0⟩
    let scan := scanRows inp.headers compiled inp.rows.enum init
    if acceptsKeywords applyFeedbackFilterSig feedbackFilterCallKwargs then
      .result (applyFeedbackFilter inp.feedback_records scan.raw_findings) scan
    else
      .raised "TypeError: apply_feedback_filter() got an unexpected keyword argument 'strategy'"

/-! ## Numeric outlier scanner, `_graph.py` lines 284-389 -/

/-- Leading-match test used by `containsSub`. -/
def leadMatch : List Char → List Char → Bool
  | _, [] => true
  | [], _ :: _ => false
  | c :: cs, d :: ds => c = d && leadMatch cs ds

/-- Substring containment on character lists. -/
def containsSub : List Char → List Char → Bool
  | s, sub =>
    if leadMatch s sub then true
    else
      match s with
      | [] => false
      | _ :: cs => containsSub cs sub

/-- Python `sub in s` for strings. -/
def strContains (s sub : String) : Bool := containsSub s.data sub.data

/-- `_NUMERIC_COL_KEYWORDS` from `_detect_numeric_outliers`. -/
def numericColKeywords : List String :=
  ["rate", "fx_rate", "fx", "amount", "balance", "translated",
   "debit", "credit", "adjustment"]

/-- One entry of `_detect_numeric_outliers`' output (the `value` is kept as
the parsed number; the source stores `str(val)`; the float-formatted
`evidence` prose is not modelled). -/
structure NumericOutlier where
  finding_type : String
  severity : String
  account : String
  row_index : ℕ
  field : String
  value : ℚ
  confidence : ℚ
deriving DecidableEq, Repr

/-- The classification of one collected value `(row_idx, row, val)` of a
flagged column: ratio above 10 is a critical outlier, re-classified as an
inverted rate when `abs(val) * median` lies in `(0.5, 2.0)`; a ratio below
0.1 on a column named exactly `rate`/`fx_rate` is a high-severity possible
decimal shift. -/
def outlierFor (account_col : Option String) (col : String) (median : ℚ)
    (t : ℕ × Row × ℚ) : Option NumericOutlier :=
  let abs_val := |t.2.2|
  let account := match account_col with
    | some ac => (t.2.1).get ac
    | none => ""
  if 10 < abs_val / median then
    let product := abs_val * median
    let is_inversion : Bool := 1 / 2 < product ∧ product < 2
    some { finding_type := if is_inversion then "sign_reversal" else "balance_mismatch"
           severity := "critical"
           account := account
           row_index := t.1
           field := col
           value := t.2.2
           confidence := if is_inversion then 95 / 100 else 85 / 100 }
  else if abs_val / median < 1 / 10 ∧ ((pyLower col) = "rate" ∨ (pyLower col) = "fx_rate") then
    some { finding_type := "balance_mismatch"
           severity := "high"
           account := account
           row_index := t.1
           field := col
           value := t.2.2
           confidence := 75 / 100 }
  else none

/-- The non-zero parsed values of one column, with their row index and row
(`float(raw.replace(",", ""))` is abstracted by the `parse` map). -/
def columnValues (parse : String → Option ℚ) (rows : List Row) (col : String) :
    List (ℕ × Row × ℚ) :=
  rows.enum.filterMap (fun p =>
    match parse (p.2.get col) with
    | some v => if v ≠ 0 then some (p.1, p.2, v) else none
    | none => none)

/-- The `abs_vals[len(abs_vals) // 2]` median of absolute values (Python's
stable sort and any correct `≤`-sort agree on the sorted list). -/
def medianAbs (values : List (ℕ × Row × ℚ)) : ℚ :=
  let abs_vals := (values.map (fun t => |t.2.2|)).insertionSort (· ≤ ·)
  abs_vals.getD (abs_vals.length / 2) 0

/-- The outliers contributed by one column of `_detect_numeric_outliers`:
skip columns without a rate/amount keyword in their lowered name, with fewer
than 3 non-zero numeric values, or with a zero median. -/
def columnOutliers (parse : String → Option ℚ) (rows : List Row)
    (account_col : Option String) (col : String) : List NumericOutlier :=
  if ¬ numericColKeywords.any (fun kw => strContains (pyLower col) kw) then []
  else
    let values := columnValues parse rows col
    if values.length < 3 then []
    else
      let median := medianAbs values
      if median = 0 then []
      else values.filterMap (outlierFor account_col col median)

/-- The first header naming an account-like column, from the loop at the top
of `_detect_numeric_outliers`. -/
def accountCol (headers : List String) : Option String :=
  headers.find? (fun h =>
    ["account_name", "account", "name", "description"].contains (pyLower h))

/-- `_detect_numeric_outliers(rows, headers)`. -/
def detectNumericOutliers (parse : String → Option ℚ) (rows : List Row)
    (headers : List String) : List NumericOutlier :=
  headers.flatMap (columnOutliers parse rows (accountCol headers))

/-! ## Verification workflow heuristics, `_verifier.py` -/

/-- A candidate finding dict flowing into the verification graph (a
`GroundedFinding.model_dump` result), restricted to the keys the heuristic
stages read. -/
structure Cand where
  finding_id : String
  finding_type : String
  severity : String
  account : String
  row_index : ℤ
  field : String
  matched_value : String
  evidence : String
  confidence : ℚ
  kb_node_ids : List String
  rule_id : String
deriving DecidableEq, Repr

/-- A triage verdict: the candidate dict spread together with the
`triage_decision` / `triage_reason` keys. -/
structure Verdict where
  cand : Cand
  triage_decision : String
  triage_reason : String
deriving DecidableEq, Repr

/-- `_MONETARY_FIELDS` from `_triage_heuristic`. -/
def monetaryFields : List String :=
  ["amount", "balance", "translated_balance", "local_balance",
   "fx_rate", "rate", "debit", "credit", "gaap_balance",
   "ifrs_balance", "ifrs_adjustment"]

/-- `monetary_cols = _MONETARY_FIELDS & {h.lower() for h in headers}`. -/
def monetaryCols (headers : List String) : List String :=
  monetaryFields.filter (fun m => headers.any (fun h => (pyLower h) = m))

/-- Descriptive field names of the generic-keyword dismissal branch. -/
def descriptiveFields : List String := ["account_name", "description", "name"]

/-- The decision chain of `_triage_heuristic` for one candidate, given the
`seen_rows` map accumulated so far (`row_idx -> first kept rule_id`). -/
def triageDecide (monetary_cols : List String) (seen_rows : List (ℤ × String))
    (c : Cand) : String × String :=
  let field := (pyLower c.field)
  if c.severity = "info" ∧ ¬ monetary_cols.contains field then
    ("dismiss", "INFO severity on non-monetary column")
  else if c.finding_type = "custom" ∧ c.matched_value.length ≤ 20 ∧
      descriptiveFields.contains field then
    ("dismiss", "Generic keyword match on " ++ field)
  else if (seen_rows.lookup c.row_index).isSome ∧
      seen_rows.lookup c.row_index ≠ some c.rule_id then
    ("dismiss", "Duplicate hit on row " ++ toString c.row_index ++
      " (kept " ++ ((seen_rows.lookup c.row_index).getD "") ++ ")")
  else if (c.severity = "critical" ∨ c.severity = "high") ∧
      monetary_cols.contains field then
    ("escalate", "High-severity finding on monetary field " ++ field)
  else ("keep", "")

/-- The `seen_rows` update of one `_triage_heuristic` iteration: the first
candidate of a row whose decision is not "dismiss" registers its rule id. -/
def seenUpdate (seen : List (ℤ × String)) (c : Cand) (decision : String) :
    List (ℤ × String) :=
  if decision ≠ "dismiss" ∧ (seen.lookup c.row_index) = none then
    seen ++ [(c.row_index, c.rule_id)]
  else seen

/-- The candidate loop of `_triage_heuristic` (the source appends to a
`verdicts` list while threading `seen_rows`; the recursion builds the same
list). -/
def triageRun (monetary_cols : List String) :
    List (ℤ × String) → List Cand → List Verdict
  | _, [] => []
  | seen, c :: cs =>
    let dr := triageDecide monetary_cols seen c
    ⟨c, dr.1, dr.2⟩ :: triageRun monetary_cols (seenUpdate seen c dr.1) cs

/-- The `seen_rows` map after the loop has consumed a list of candidates. -/
def seenAfter (monetary_cols : List String) (seen : List (ℤ × String)) :
    List Cand → List (ℤ × String)
  | [] => seen
  | c :: cs =>
    seenAfter monetary_cols
      (seenUpdate seen c (triageDecide monetary_cols seen c).1) cs

/-- Output dict of the triage node. -/
structure TriageResult where
  triage_verdicts : List Verdict
  triage_summary : String
  dismissed_count : ℕ
deriving DecidableEq, Repr

/-- `_triage_heuristic(state)` (the source's running `dismissed` counter
equals the number of "dismiss" verdicts). -/
def triageHeuristic (headers : List String) (candidates : List Cand) :
    TriageResult :=
  let monetary_cols := monetaryCols headers
  let verdicts := triageRun monetary_cols [] candidates
  let dismissed := verdicts.countP (fun v => v.triage_decision = "dismiss")
  { triage_verdicts := verdicts
    triage_summary := "Heuristic triage: " ++ toString dismissed ++ "/" ++
      toString candidates.length ++ " dismissed, " ++
      toString (candidates.length - dismissed) ++ " kept/escalated"
    dismissed_count := dismissed }

/-- A structured numeric-check record produced by the verify stage. -/
structure NumericCheck where
  row_index : ℤ
  field : String
  value : String
  expected_range : String
  anomaly_type : String
  confidence : ℚ
deriving DecidableEq, Repr

/-- An entry of `state["verified_findings"]` as read by `_reconcile_heuristic`
(`adjusted_confidence` is optional there: `v.get("adjusted_confidence",
v.get("confidence", 0.5))`). -/
structure RFind where
  finding_id : String
  finding_type : String
  severity : String
  account : String
  row_index : ℤ
  field : String
  evidence : String
  verification_note : String
  confidence : ℚ
  adjusted_confidence : Option ℚ
  kb_node_ids : List String
deriving DecidableEq, Repr

/-- An entry of `state["new_findings"]` as read by `_reconcile_heuristic`. -/
structure NewFinding where
  finding_type : String
  severity : String
  account : String
  row_index : ℤ
  field : String
  evidence : String
  confidence : ℚ
deriving DecidableEq, Repr

/-- `_RATE_RANGES` from `_verify_heuristic` (currency, low, high). -/
def rateRanges : List (String × ℚ × ℚ) :=
  [("EUR", 8/10, 13/10), ("GBP", 11/10, 16/10), ("JPY", 5/1000, 12/1000),
   ("CAD", 65/100, 85/100), ("AUD", 55/100, 80/100), ("CHF", 95/100, 125/100),
   ("CNY", 12/100, 18/100), ("INR", 10/1000, 15/1000), ("BRL", 15/100, 25/100),
   ("MXN", 4/100, 7/100), ("SGD", 70/100, 80/100)]

/-- The inner `for ccy, (lo, hi) in _RATE_RANGES.items()` loop of
`_verify_heuristic`: a value inside some band lowers the confidence and
breaks; otherwise every iteration with `v > 10 or v < 0.001` boosts the
confidence again and appends another numeric-check record. -/
def rateLoop (s : Verdict) (v : ℚ) :
    ℚ → List NumericCheck → List (String × ℚ × ℚ) → ℚ × List NumericCheck
  | conf, checks, [] => (conf, checks)
  | conf, checks, (_, lo, hi) :: rest =>
    if lo ≤ v ∧ v ≤ hi then (max (3/10) (conf - 2/10), checks)
    else if 10 < v ∨ v < 1/1000 then
      let conf' := min 1 (conf + 2/10)
      rateLoop s v conf'
        (checks ++ [{ row_index := s.cand.row_index
                      field := s.cand.field
                      value := s.cand.matched_value
                      expected_range := "currency-dependent"
                      anomaly_type := "unusual_rate"
                      confidence := conf' }]) rest
    else rateLoop s v conf checks rest

/-- Output dict of the verify node. -/
structure VerifyResult where
  verified_findings : List RFind
  verification_notes : List String
  numeric_checks : List NumericCheck
  new_findings : List NewFinding
deriving DecidableEq, Repr

/-- The per-survivor body of `_verify_heuristic`: boost escalated findings,
run the rate-range scan when the matched value parses on a rate/fx field, and
keep the survivor when the resulting confidence reaches 0.3. -/
def verifyStep (parse : String → Option ℚ) (acc : List RFind × List NumericCheck)
    (s : Verdict) : List RFind × List NumericCheck :=
  let conf0 := s.cand.confidence
  let conf1 := if s.triage_decision = "escalate" then min 1 (conf0 + 1/10) else conf0
  let res :=
    match parse s.cand.matched_value with
    | some v =>
      if strContains (pyLower s.cand.field) "rate" ∨ strContains (pyLower s.cand.field) "fx" then
        rateLoop s v conf1 [] rateRanges
      else (conf1, [])
    | none => (conf1, [])
  let verified :=
    if 3/10 ≤ res.1 then
      acc.1 ++ [{ finding_id := s.cand.finding_id
                  finding_type := s.cand.finding_type
                  severity := s.cand.severity
                  account := s.cand.account
                  row_index := s.cand.row_index
                  field := s.cand.field
                  evidence := s.cand.evidence
                  verification_note := "Heuristic: severity=" ++ s.cand.severity ++
                    ", field=" ++ s.cand.field
                  confidence := s.cand.confidence
                  adjusted_confidence := some (pyRound4 res.1)
                  kb_node_ids := s.cand.kb_node_ids }]
    else acc.1
  (verified, acc.2 ++ res.2)

/-- `_verify_heuristic(state, survivors)` (the fallback cannot discover novel
findings: `new_findings` is always empty). -/
def verifyHeuristic (parse : String → Option ℚ) (survivors : List Verdict) :
    VerifyResult :=
  let res := survivors.foldl (verifyStep parse) ([], [])
  { verified_findings := res.1
    verification_notes := ["Heuristic verified " ++ toString res.1.length ++ "/" ++
      toString survivors.length ++ " findings"]
    numeric_checks := res.2
    new_findings := [] }

/-! ## Reconcile stage and the verification graph, `_verifier.py` / `_graph.py` -/

/-- A final finding dict built by `_reconcile_heuristic`. -/
structure FinalFinding where
  finding_id : String
  finding_type : String
  severity : String
  account : String
  row_index : ℤ
  field : String
  evidence : String
  confidence : ℚ
  source : String
  kb_node_ids : List String
deriving DecidableEq, Repr

/-- The de-duplication key `(account, row_index, finding_type)`. -/
abbrev RKey := String × ℤ × String

/-- Key of a verified finding. -/
def RFind.key (v : RFind) : RKey := (v.account, v.row_index, v.finding_type)

/-- Key of a numeric check: the account slot is `""` and the finding-type slot
is the anomaly type. -/
def NumericCheck.key (nc : NumericCheck) : RKey := ("", nc.row_index, nc.anomaly_type)

/-- Key of a novel finding. -/
def NewFinding.key (nf : NewFinding) : RKey := (nf.account, nf.row_index, nf.finding_type)

/-- Key of a final finding. -/
def FinalFinding.key (f : FinalFinding) : RKey := (f.account, f.row_index, f.finding_type)

/-- The final-finding dict appended for an AI-verified entry (priority 1):
confidence is `adjusted_confidence` when present, else the incoming
confidence, rounded to 4 digits. -/
def mkFinalFromVerified (v : RFind) : FinalFinding :=
  { finding_id := v.finding_id
    finding_type := v.finding_type
    severity := v.severity
    account := v.account
    row_index := v.row_index
    field := v.field
    evidence := v.evidence
    confidence := pyRound4 (v.adjusted_confidence.getD v.confidence)
    source := "combined"
    kb_node_ids := v.kb_node_ids }

/-- The final-finding dict appended for a numeric check (priority 2). -/
def mkFinalFromNumeric (nc : NumericCheck) : FinalFinding :=
  { finding_id := ""
    finding_type := nc.anomaly_type
    severity := if 7/10 < nc.confidence then "high" else "medium"
    account := ""
    row_index := nc.row_index
    field := nc.field
    evidence := "Numeric anomaly: value " ++ nc.value ++ " outside " ++ nc.expected_range
    confidence := nc.confidence
    source := "ai"
    kb_node_ids := [] }

/-- The final-finding dict appended for a novel AI finding (priority 3). -/
def mkFinalFromNew (nf : NewFinding) : FinalFinding :=
  { finding_id := ""
    finding_type := nf.finding_type
    severity := nf.severity
    account := nf.account
    row_index := nf.row_index
    field := nf.field
    evidence := nf.evidence
    confidence := nf.confidence
    source := "ai"
    kb_node_ids := [] }

/-- Accumulator of the `seen_keys` / `all_findings` de-duplication loops. -/
structure DedupAcc where
  seen_keys : List RKey
  all_findings : List FinalFinding
deriving DecidableEq, Repr

/-- `if key not in seen_keys: seen_keys.add(key); all_findings.append(entry)`. -/
def addIfNew (acc : DedupAcc) (key : RKey) (entry : FinalFinding) : DedupAcc :=
  if key ∈ acc.seen_keys then acc
  else ⟨acc.seen_keys ++ [key], acc.all_findings ++ [entry]⟩

/-- `_SEV_ORDER` with the `.get(severity, 2)` default. -/
def sevRank (s : String) : ℕ :=
  if s = "critical" then 0
  else if s = "high" then 1
  else if s = "medium" then 2
  else if s = "low" then 3
  else if s = "info" then 4
  else 2

/-- Sort key order of `_reconcile_heuristic`: severity rank ascending, then
confidence descending. -/
def reconcileKeyLE (f g : FinalFinding) : Prop :=
  sevRank f.severity < sevRank g.severity ∨
    (sevRank f.severity = sevRank g.severity ∧ g.confidence ≤ f.confidence)

instance : DecidableRel reconcileKeyLE := fun f g => by
  unfold reconcileKeyLE; infer_instance

instance : IsTotal FinalFinding reconcileKeyLE where
  total f g := by
    unfold reconcileKeyLE
    rcases Nat.lt_trichotomy (sevRank f.severity) (sevRank g.severity) with h | h | h
    · exact Or.inl (Or.inl h)
    · rcases le_total g.confidence f.confidence with hc | hc
      · exact Or.inl (Or.inr ⟨h, hc⟩)
      · exact Or.inr (Or.inr ⟨h.symm, hc⟩)
    · exact Or.inr (Or.inl h)

instance : IsTrans FinalFinding reconcileKeyLE where
  trans f g h hfg hgh := by
    unfold reconcileKeyLE at *
    rcases hfg with h1 | ⟨h1, h1c⟩ <;> rcases hgh with h2 | ⟨h2, h2c⟩
    · exact Or.inl (h1.trans h2)
    · exact Or.inl (h2 ▸ h1)
    · exact Or.inl (h1 ▸ h2)
    · exact Or.inr ⟨h1.trans h2, h2c.trans h1c⟩

/-- Output dict of the reconcile node (the `confidence_adjustments` map,
unread by the graph logic, is not modelled). -/
structure ReconcileResult where
  final_findings : List FinalFinding
  reconciliation_summary : String
  converged : Bool
deriving DecidableEq, Repr

/-- The de-duplicated union of `_reconcile_heuristic`: verified findings
first, then numeric checks, then novel findings, each appended only when its
key is unseen. -/
def reconcileCollect (verified : List RFind) (numeric_checks : List NumericCheck)
    (new_findings : List NewFinding) : DedupAcc :=
  let acc1 := verified.foldl (fun acc v => addIfNew acc v.key (mkFinalFromVerified v)) ⟨[], []⟩
  let acc2 := numeric_checks.foldl (fun acc nc => addIfNew acc nc.key (mkFinalFromNumeric nc)) acc1
  new_findings.foldl (fun acc nf => addIfNew acc nf.key (mkFinalFromNew nf)) acc2

/-- `_reconcile_heuristic(state)`: collect, de-duplicate, sort (Python's
stable sort is modelled by a stable insertion sort over the same key order),
and mark the workflow converged (the float noise-reduction percentage in the
summary prose is not modelled). -/
def reconcileHeuristic (candidates_count dismissed : ℕ) (verified : List RFind)
    (numeric_checks : List NumericCheck) (new_findings : List NewFinding) :
    ReconcileResult :=
  let all_findings := (reconcileCollect verified numeric_checks new_findings).all_findings
  let sorted := all_findings.insertionSort reconcileKeyLE
  { final_findings := sorted
    reconciliation_summary := "Processed " ++ toString candidates_count ++
      " candidates: " ++ toString dismissed ++ " dismissed by triage, " ++
      toString all_findings.length ++ " verified findings."
    converged := true }

/-- The workflow state (`_state.py` `VerificationState`), restricted to the
keys the graph logic reads and writes. -/
structure VerificationState where
  csv_headers : List String
  candidate_findings : List Cand
  triage_verdicts : List Verdict
  triage_summary : String
  dismissed_count : ℕ
  verified_findings : List RFind
  verification_notes : List String
  numeric_checks : List NumericCheck
  new_findings : List NewFinding
  final_findings : List FinalFinding
  reconciliation_summary : String
  round_number : ℕ
  max_rounds : ℕ
  converged : Bool
  error : String

/-- `_reconcile_heuristic` on the graph state. -/
def reconcileHeuristicState (st : VerificationState) : ReconcileResult :=
  reconcileHeuristic st.candidate_findings.length st.dismissed_count
    st.verified_findings st.numeric_checks st.new_findings

/-- A successful LLM reconciliation response (already parsed). -/
structure LLMReconcileResponse where
  final_findings : List FinalFinding
  summary : String

/-- `_reconcile_with_llm`: a successful call returns the response with
`converged: True` hardcoded; any exception falls back to the heuristic. -/
def reconcileWithLLM (response : Option LLMReconcileResponse)
    (st : VerificationState) : ReconcileResult :=
  match response with
  | some r => { final_findings := r.final_findings
                reconciliation_summary := r.summary
                converged := true }
  | none => reconcileHeuristicState st

/-- `reconcile_node`: LLM when available (its call outcome given by the
oracle), else the heuristic. `none` covers both an unavailable LLM and a
failed call, which both reach `_reconcile_heuristic`. -/
def reconcileNode (oracle : Option LLMReconcileResponse)
    (st : VerificationState) : ReconcileResult :=
  match oracle with
  | some r => reconcileWithLLM (some r) st
  | none => reconcileHeuristicState st

/-- `triage_node`: empty candidates short-circuit; an available LLM's parsed
verdicts are given by the oracle; `none` covers both an unavailable LLM and a
failed call, which reach `_triage_heuristic`. -/
def triageNode (oracle : Option TriageResult) (st : VerificationState) :
    TriageResult :=
  if st.candidate_findings = [] then
    { triage_verdicts := [], triage_summary := "No candidates to triage.",
      dismissed_count := 0 }
  else
    match oracle with
    | some r => r
    | none => triageHeuristic st.csv_headers st.candidate_findings

/-- The triage survivors filter at the top of `verify_node`. -/
def triageSurvivors (verdicts : List Verdict) : List Verdict :=
  verdicts.filter (fun v => v.triage_decision = "keep" ∨ v.triage_decision = "escalate")

/-- `verify_node`: an available LLM's parsed output is given by the oracle
(`some`); `none` covers the LLM-unavailable and call-failed paths, which run
the heuristic on the survivors, or the fixed empty result when additionally
no candidate survived triage and no LLM exists. -/
def verifyNode (parse : String → Option ℚ) (oracle : Option VerifyResult)
    (llm_failed : Bool) (st : VerificationState) : VerifyResult :=
  let survivors := triageSurvivors st.triage_verdicts
  match oracle with
  | some r => r
  | none =>
    if llm_failed ∨ survivors ≠ [] then verifyHeuristic parse survivors
    else
      { verified_findings := []
        verification_notes := ["No findings survived triage; LLM unavailable for novel detection."]
        numeric_checks := []
        new_findings := [] }

/-- Merging a triage node's returned dict into the graph state. -/
def applyTriage (st : VerificationState) (r : TriageResult) : VerificationState :=
  { st with triage_verdicts := r.triage_verdicts
            triage_summary := r.triage_summary
            dismissed_count := r.dismissed_count }

/-- Merging a verify node's returned dict into the graph state. -/
def applyVerify (st : VerificationState) (r : VerifyResult) : VerificationState :=
  { st with verified_findings := r.verified_findings
            verification_notes := r.verification_notes
            numeric_checks := r.numeric_checks
            new_findings := r.new_findings }

/-- Merging a reconcile node's returned dict into the graph state. -/
def applyReconcile (st : VerificationState) (r : ReconcileResult) : VerificationState :=
  { st with final_findings := r.final_findings
            reconciliation_summary := r.reconciliation_summary
            converged := r.converged }

/-- `_should_continue(state)` from `_graph.py`. -/
def shouldContinue (st : VerificationState) : String :=
  if st.converged then "end"
  else if st.error ≠ "" then "end"
  else if st.max_rounds ≤ st.round_number then "end"
  else "continue"

/-- The per-round LLM-call outcomes (one oracle per node). -/
structure Oracles where
  triage : Option TriageResult
  verify : Option VerifyResult
  verify_failed : Bool
  reconcile : Option LLMReconcileResponse

/-- One Triage → Verify → Reconcile pass of the compiled graph. -/
def runRound (parse : String → Option ℚ) (o : Oracles) (st : VerificationState) :
    VerificationState :=
  let st1 := applyTriage st (triageNode o.triage st)
  let st2 := applyVerify st1 (verifyNode parse o.verify o.verify_failed st1)
  applyReconcile st2 (reconcileNode o.reconcile st2)

/-- The graph's conditional loop (`reconcile → triage` on `"continue"`,
`END` otherwise), with fuel bounding the rounds and a pass counter. -/
def runGraph (parse : String → Option ℚ) (oracles : ℕ → Oracles) :
    ℕ → VerificationState → ℕ → VerificationState × ℕ
  | 0, st, passes => (st, passes)
  | fuel + 1, st, passes =>
    let st' := runRound parse (oracles passes) st
    if shouldContinue st' = "continue" then runGraph parse oracles fuel st' (passes + 1)
    else (st', passes + 1)

/-! ## Rule building from KB nodes, `_rules.py` lines 151-197 -/

/-- The fields of a KB node read by `_build_rule_from_explicit`. -/
structure KBNode where
  id : String
  name : String
  confidence : Option ℚ
deriving Repr

/-- An explicit `detection_rule` property block. -/
structure KBRuleBlock where
  pattern : String
  field_targets : List String
  finding_type : String
  severity : String
  standard : String
  description : Option String
deriving Repr

/-- `_FINDING_TYPE_MAP` from `_rules.py`. -/
def findingTypeMap : List (String × FindingType) :=
  [("sign_reversal", .sign_reversal), ("sign_convention", .sign_reversal),
   ("rounding", .rounding_discrepancy), ("rounding_tolerance", .rounding_discrepancy),
   ("missing", .missing_account), ("missing_account", .missing_account),
   ("duplicate", .duplicate_account), ("duplicate_account", .duplicate_account),
   ("hierarchy", .hierarchy_break), ("hierarchy_break", .hierarchy_break),
   ("naming", .naming_violation), ("naming_convention", .naming_violation),
   ("balance", .balance_mismatch), ("trial_balance", .balance_mismatch),
   ("formula", .formula_anomaly), ("formula_anomaly", .formula_anomaly),
   ("classification", .classification_error), ("classification_error", .classification_error)]

/-- All `FindingType` values, for the direct-enum fallback `FindingType(key)`. -/
def allFindingTypes : List FindingType :=
  [.sign_reversal, .rounding_discrepancy, .missing_account, .duplicate_account,
   .hierarchy_break, .naming_violation, .balance_mismatch, .formula_anomaly,
   .classification_error, .custom]

/-- `_resolve_finding_type(raw)`. -/
def resolveFindingType (raw : String) : FindingType :=
  if raw = "" then .custom
  else
    let key := (pyStrip (pyLower raw))
    match findingTypeMap.lookup key with
    | some ft => ft
    | none => (allFindingTypes.find? (fun ft => ft.value = key)).getD .custom

/-- `_SEVERITY_MAP` from `_rules.py`. -/
def severityMap : List (String × Severity) :=
  [("critical", .critical), ("high", .high), ("medium", .medium),
   ("low", .low), ("info", .info)]

/-- `_resolve_severity(raw)`. -/
def resolveSeverity (raw : String) : Severity :=
  if raw = "" then .medium
  else (severityMap.lookup (pyStrip (pyLower raw))).getD .medium

/-- `_build_rule_from_explicit(node, rule_block, source_file)`: empty or
non-compiling patterns yield no rule; the confidence prior is taken verbatim
from `node.get("confidence", 0.9)` with no clamping. -/
def buildRuleFromExplicit (compileOk : String → Bool) (node : KBNode)
    (rule_block : KBRuleBlock) (source_file : String) : Option DetectionRule :=
  if rule_block.pattern = "" then none
  else if ¬ compileOk rule_block.pattern then none
  else some
    { rule_id := "rule_" ++ node.id
      name := node.name
      standard := rule_block.standard
      finding_type := resolveFindingType rule_block.finding_type
      pattern := rule_block.pattern
      field_targets := rule_block.field_targets
      severity := resolveSeverity rule_block.severity
      description := rule_block.description.getD node.name
      evidence_nodes := [node.id]
      kb_source_file := source_file
      confidence := node.confidence.getD (9/10) }

/-! ## Derived notions used in theorem statements -/

/-- The per-row `has_finding` flags a scan feeds to the SPRT state. -/
def rowFlags (headers : List String) (compiled_rules : List CompiledRule)
    (rows : List (ℕ × Row)) : List Bool :=
  rows.map (fun p => decide (0 < (checkRow p.1 p.2 headers compiled_rules).length))

/-- The number of findings each row of a scan contributes. -/
def rowCounts (headers : List String) (compiled_rules : List CompiledRule)
    (rows : List (ℕ × Row)) : List ℕ :=
  rows.map (fun p => (checkRow p.1 p.2 headers compiled_rules).length)

/-- Initial scan state with SPRT early exit enabled. -/
def scanInit : ScanState := ⟨[], some SPRTState.init, 0⟩

/-! ## Concrete fixtures used by counterexamples and witnesses -/

/-- A 150-row file in which no row produces a finding (no rules fire). -/
def rows150 : List Row := List.replicate 150 []

/-- Scan of the 150 clean rows with early exit enabled and no compiled rules. -/
def cleanScan150 : ScanState := scanRows [] [] rows150.enum scanInit

/-- A compile map whose regex never matches. -/
def cmpNever : String → Option RegexM := fun _ => some ⟨fun _ => none⟩

/-- A compile map whose regex matches exactly the value `"x"`. -/
def cmpX : String → Option RegexM :=
  fun _ => some ⟨fun s => if s = "x" then some "x" else none⟩

/-- A compile map that always reports a regex error. -/
def cmpFail : String → Option RegexM := fun _ => none

/-- A minimal rule with no declared field targets. -/
def ruleAny : DetectionRule :=
  { rule_id := "rule_r1", name := "r1", standard := "", finding_type := .custom,
    pattern := "x", field_targets := [], severity := .medium, description := "",
    evidence_nodes := [], kb_source_file := "", confidence := mkRat 9 10 }

/-- A rule whose only declared target resolves to no header of the file. -/
def ruleUnresolved : DetectionRule :=
  { rule_id := "rule_bad", name := "bad", standard := "", finding_type := .custom,
    pattern := "x", field_targets := ["zzz"], severity := .medium, description := "",
    evidence_nodes := [], kb_source_file := "", confidence := mkRat 9 10 }

/-- A rule targeting the `amount` column. -/
def ruleAmount : DetectionRule :=
  { rule_id := "rule_amt", name := "amt", standard := "", finding_type := .sign_reversal,
    pattern := "x", field_targets := ["amount"], severity := .high, description := "",
    evidence_nodes := [], kb_source_file := "", confidence := mkRat 9 10 }

/-- A one-cell row whose `amount` value is `"x"`. -/
def rowX : Row := [("amount", "x")]

/-- `detect_grounded` input with one rule and one data row. -/
def inpOneRow : DetectInput :=
  { fileExists := true, suffixOk := true, rules := [ruleAny], rows := [rowX],
    headers := ["amount"], feedback_records := [], min_confidence := 0,
    early_exit := true }

/-- Ledger with one confirmation and one dismissal for `(R, custom)`. -/
def recsNetZero : List FeedbackRecord :=
  [⟨"R", "custom", "confirmed"⟩, ⟨"R", "custom", "dismissed"⟩]

/-- A finding for rule `R` whose confidence has more than 4 decimal digits. -/
def findFiveDigits : GroundedFinding :=
  { finding_type := .custom, severity := .medium, account := "", row_index := 0,
    field := "f", matched_value := "v", evidence := "", kb_node_ids := [],
    confidence := 123456 / 1000000, grounding_context := "", rule_id := "R",
    rule_name := "R" }

/-- Parse map of a rate column holding three `0.1` cells and one `15` cell. -/
def parseRate : String → Option ℚ
  | "0.1" => some (mkRat 1 10)
  | "15" => some 15
  | _ => none

/-- Four rows of a `rate` column: `0.1, 0.1, 0.1, 15` (median of absolute
values `0.1`; the outlier `15` has ratio `150` and product `1.5`). -/
def rateRows : List Row :=
  [[("rate", "0.1")], [("rate", "0.1")], [("rate", "0.1")], [("rate", "15")]]

/-- A verified finding with confidence `0.4` (no AI adjustment). -/
def rfLow : RFind :=
  { finding_id := "a", finding_type := "sign_reversal", severity := "high",
    account := "acct", row_index := 3, field := "rate", evidence := "e1",
    verification_note := "", confidence := 2/5, adjusted_confidence := none,
    kb_node_ids := [] }

/-- A verified finding with the same key as `rfLow` and confidence `0.9`. -/
def rfHigh : RFind :=
  { rfLow with finding_id := "b", evidence := "e2", confidence := 9/10 }

/-- A verified finding with rule confidence `1` and AI confidence `0.5`. -/
def rfBoth : RFind :=
  { finding_id := "c", finding_type := "balance_mismatch", severity := "high",
    account := "acct2", row_index := 5, field := "amount", evidence := "e3",
    verification_note := "", confidence := 1, adjusted_confidence := some (1/2),
    kb_node_ids := [] }

/-- KB node carrying an out-of-range confidence prior `1.5`. -/
def nodeOverConfident : KBNode := { id := "n1", name := "Rule One", confidence := some (mkRat 3 2) }

/-- Explicit `detection_rule` block of `nodeOverConfident`. -/
def blockOverConfident : KBRuleBlock :=
  { pattern := "x", field_targets := ["amount"], finding_type := "sign_reversal",
    severity := "high", standard := "GAAP", description := none }

/-- A low-severity candidate on a non-monetary descriptive-free field. -/
def candLowNotes : Cand :=
  { finding_id := "f1", finding_type := "balance_mismatch", severity := "low",
    account := "acct", row_index := 0, field := "notes", matched_value := "x",
    evidence := "", confidence := 1/2, kb_node_ids := [], rule_id := "r1" }

/-- A critical candidate on a monetary field. -/
def candCritAmount : Cand :=
  { finding_id := "f2", finding_type := "sign_reversal", severity := "critical",
    account := "acct", row_index := 1, field := "amount", matched_value := "x",
    evidence := "", confidence := 9/10, kb_node_ids := [], rule_id := "r2" }

/-- An empty verification-graph state with two rounds allowed. -/
def vstateEmpty : VerificationState :=
  { csv_headers := ["amount", "notes"], candidate_findings := [candCritAmount],
    triage_verdicts := [], triage_summary := "", dismissed_count := 0,
    verified_findings := [], verification_notes := [], numeric_checks := [],
    new_findings := [], final_findings := [], reconciliation_summary := "",
    round_number := 1, max_rounds := 2, converged := false, error := "" }

/-- Oracles modelling an unavailable LLM at every node. -/
def oraclesNone : ℕ → Oracles := fun _ => ⟨none, none, false, none⟩

/-- A parse map that never parses. -/
def parseNone : String → Option ℚ := fun _ => none

/-- The rule `_build_rule_from_explicit` produces for `nodeOverConfident`. -/
def ruleOverConfident : DetectionRule :=
  { rule_id := "rule_n1", name := "Rule One", standard := "GAAP",
    finding_type := .sign_reversal, pattern := "x", field_targets := ["amount"],
    severity := .high, description := "Rule One", evidence_nodes := ["n1"],
    kb_source_file := "kb.json", confidence := mkRat 3 2 }

/-- Four dismissal records for `(R1, balance_mismatch)`. -/
def recsFourDismissals : List FeedbackRecord :=
  List.replicate 4 ⟨"R1", "balance_mismatch", "dismissed"⟩

/-- A finding for rule `R1` of type `balance_mismatch`. -/
def findR1Balance : GroundedFinding :=
  { finding_type := .balance_mismatch, severity := .high, account := "acct",
    row_index := 2, field := "amount", matched_value := "v", evidence := "",
    kb_node_ids := [], confidence := 8/10, grounding_context := "",
    rule_id := "R1", rule_name := "R1" }

/-- The finding `_check_row` produces for `ruleAmount` on `rowX`. -/
def findAmountX : GroundedFinding := mkRowFinding ruleAmount "x" 0 "amount" "x" "x"

/-- A 326-row file in which no row produces a finding. -/
def rows326 : List Row := List.replicate 326 []

/-- A 3-row file in which no row produces a finding. -/
def rows3 : List Row := List.replicate 3 []

end Databridge

/-! # Theorems -/

namespace Databridge

/-! ## Supporting lemmas -/

theorem SPRTState.update_rows_checked (s : SPRTState) (b : Bool) :
    (s.update b).rows_checked = s.rows_checked + 1 := rfl

/-- The SPRT update only makes a decision once at least `_SPRT_MIN_ROWS` rows
have been examined. -/
theorem SPRTState.update_min_rows (s : SPRTState) (b : Bool)
    (h : s.decision ≠ none → sprtMinRows ≤ s.rows_checked) :
    (s.update b).decision ≠ none → sprtMinRows ≤ (s.update b).rows_checked := by
  unfold SPRTState.update
  dsimp only
  by_cases hg : sprtMinRows ≤ s.rows_checked + 1 ∧ s.decision = none
  · rw [if_pos hg]
    intro _
    exact hg.1
  · rw [if_neg hg]
    intro hd
    exact Nat.le_succ_of_le (h hd)

theorem sprt_foldl_min_rows (flags : List Bool) :
    ∀ (s : SPRTState), (s.decision ≠ none → sprtMinRows ≤ s.rows_checked) →
      (flags.foldl SPRTState.update s).decision ≠ none →
      sprtMinRows ≤ (flags.foldl SPRTState.update s).rows_checked := by
  induction flags with
  | nil => intro s h; exact h
  | cons b rest ih =>
    intro s h
    exact ih (s.update b) (s.update_min_rows b h)

theorem scanRows_nil (headers : List String) (compiled : List CompiledRule)
    (st : ScanState) : scanRows headers compiled [] st = st := rfl

theorem scanRows_cons_cap (headers : List String) (compiled : List CompiledRule)
    (r : ℕ × Row) (rest : List (ℕ × Row)) (st : ScanState)
    (hcap : maxFindingsPerFile ≤ st.raw_findings.length) :
    scanRows headers compiled (r :: rest) st = st := by
  rw [scanRows, if_pos hcap]

/-- Unfolding of one scan step when the SPRT state is active and the findings
cap has not been reached. -/
theorem scanRows_cons_some (headers : List String) (compiled : List CompiledRule)
    (r : ℕ × Row) (rest : List (ℕ × Row)) (st : ScanState) (s : SPRTState)
    (hs : st.sprt = some s)
    (hcap : ¬ maxFindingsPerFile ≤ st.raw_findings.length) :
    scanRows headers compiled (r :: rest) st =
      (if (s.update (decide (0 < (checkRow r.1 r.2 headers compiled).length))).decision
          = some SPRTDecision.clean
       then ScanState.mk (st.raw_findings ++ checkRow r.1 r.2 headers compiled)
            (some (s.update (decide (0 < (checkRow r.1 r.2 headers compiled).length))))
            (st.rows_scanned + 1)
       else scanRows headers compiled rest
            (ScanState.mk (st.raw_findings ++ checkRow r.1 r.2 headers compiled)
              (some (s.update (decide (0 < (checkRow r.1 r.2 headers compiled).length))))
              (st.rows_scanned + 1))) := by
  rw [scanRows, if_neg hcap]
  simp only [hs, Option.map_some']

/-- Unfolding of one scan step when early exit is disabled. -/
theorem scanRows_cons_none (headers : List String) (compiled : List CompiledRule)
    (r : ℕ × Row) (rest : List (ℕ × Row)) (st : ScanState)
    (hs : st.sprt = none)
    (hcap : ¬ maxFindingsPerFile ≤ st.raw_findings.length) :
    scanRows headers compiled (r :: rest) st =
      scanRows headers compiled rest
        (ScanState.mk (st.raw_findings ++ checkRow r.1 r.2 headers compiled) none
          (st.rows_scanned + 1)) := by
  rw [scanRows, if_neg hcap]
  simp only [hs, Option.map_none']

/-- The scan is stopped by the row at which the SPRT state first decides
"clean": after a prefix of `k+1` rows whose flags drive the state to "clean",
at most `k+1` further rows are counted. -/
theorem scan_stop_on_clean (headers : List String) (compiled : List CompiledRule) :
    ∀ (rows : List (ℕ × Row)) (st : ScanState) (s : SPRTState), st.sprt = some s →
      ∀ k, k < rows.length →
        ((rowFlags headers compiled (rows.take (k+1))).foldl SPRTState.update s).decision
          = some .clean →
        (scanRows headers compiled rows st).rows_scanned ≤ st.rows_scanned + (k+1) := by
  intro rows
  induction rows with
  | nil =>
    intro st s hs k hk
    exact absurd hk (Nat.not_lt_zero k)
  | cons r rest ih =>
    intro st s hs k hk hclean
    by_cases hcap : maxFindingsPerFile ≤ st.raw_findings.length
    · rw [scanRows_cons_cap headers compiled r rest st hcap]; omega
    · rw [scanRows_cons_some headers compiled r rest st s hs hcap]
      by_cases hdec :
          (s.update (decide (0 < (checkRow r.1 r.2 headers compiled).length))).decision
            = some SPRTDecision.clean
      · rw [if_pos hdec]
        dsimp only
        omega
      · rw [if_neg hdec]
        cases k with
        | zero =>
          exfalso
          apply hdec
          simpa [rowFlags] using hclean
        | succ j =>
          have hrec := ih
            (ScanState.mk (st.raw_findings ++ checkRow r.1 r.2 headers compiled)
              (some (s.update (decide (0 < (checkRow r.1 r.2 headers compiled).length))))
              (st.rows_scanned + 1))
            (s.update (decide (0 < (checkRow r.1 r.2 headers compiled).length)))
            rfl j (by simpa using Nat.lt_of_succ_lt_succ hk)
            (by simpa [rowFlags] using hclean)
          dsimp only at hrec
          omega

/-- When no prefix of the flags drives the SPRT state to "clean" and the
findings cap is never reached, every row is scanned. -/
theorem scan_completes (headers : List String) (compiled : List CompiledRule) :
    ∀ (rows : List (ℕ × Row)) (st : ScanState) (s : SPRTState), st.sprt = some s →
      (∀ k, k ≤ rows.length →
        ((rowFlags headers compiled (rows.take k)).foldl SPRTState.update s).decision
          ≠ some .clean) →
      st.raw_findings.length + (rowCounts headers compiled rows).sum < maxFindingsPerFile →
      (scanRows headers compiled rows st).rows_scanned = st.rows_scanned + rows.length := by
  intro rows
  induction rows with
  | nil =>
    intro st s _ _ _
    simp [scanRows_nil]
  | cons r rest ih =>
    intro st s hs hnoclean hcap
    have hcap' : ¬ maxFindingsPerFile ≤ st.raw_findings.length := by
      simp only [rowCounts, List.map_cons, List.sum_cons] at hcap
      omega
    rw [scanRows_cons_some headers compiled r rest st s hs hcap']
    have hdec :
        (s.update (decide (0 < (checkRow r.1 r.2 headers compiled).length))).decision
          ≠ some SPRTDecision.clean := by
      have := hnoclean 1 (by simp)
      simpa [rowFlags] using this
    rw [if_neg hdec]
    have hrec := ih
      (ScanState.mk (st.raw_findings ++ checkRow r.1 r.2 headers compiled)
        (some (s.update (decide (0 < (checkRow r.1 r.2 headers compiled).length))))
        (st.rows_scanned + 1))
      (s.update (decide (0 < (checkRow r.1 r.2 headers compiled).length)))
      rfl
      (by
        intro k hk
        have := hnoclean (k + 1) (by simpa using Nat.succ_le_succ hk)
        simpa [rowFlags] using this)
      (by
        simp only [rowCounts, List.map_cons, List.sum_cons] at hcap
        simp only [rowCounts, List.length_append]
        omega)
    dsimp only at hrec
    simp only [List.length_cons]
    omega

/-- The minimum-rows invariant is preserved along the scan loop. -/
theorem scan_sprt_min_rows (headers : List String) (compiled : List CompiledRule) :
    ∀ (rows : List (ℕ × Row)) (st : ScanState),
      (∀ s, st.sprt = some s → s.decision ≠ none → sprtMinRows ≤ s.rows_checked) →
      ∀ s', (scanRows headers compiled rows st).sprt = some s' →
        s'.decision ≠ none → sprtMinRows ≤ s'.rows_checked := by
  intro rows
  induction rows with
  | nil =>
    intro st h s' hs'
    exact h s' hs'
  | cons r rest ih =>
    intro st h s' hs'
    by_cases hcap : maxFindingsPerFile ≤ st.raw_findings.length
    · rw [scanRows_cons_cap headers compiled r rest st hcap] at hs'
      exact h s' hs'
    · cases hsprt : st.sprt with
      | none =>
        rw [scanRows_cons_none headers compiled r rest st hsprt hcap] at hs'
        exact ih _ (by intro s hsome; exact absurd hsome (by simp)) s' hs'
      | some s =>
        rw [scanRows_cons_some headers compiled r rest st s hsprt hcap] at hs'
        have hupd : ∀ t,
            (ScanState.mk (st.raw_findings ++ checkRow r.1 r.2 headers compiled)
              (some (s.update (decide (0 < (checkRow r.1 r.2 headers compiled).length))))
              (st.rows_scanned + 1)).sprt = some t →
            t.decision ≠ none → sprtMinRows ≤ t.rows_checked := by
          intro t ht
          cases ht
          exact s.update_min_rows _ (h s hsprt)
        by_cases hdec :
            (s.update (decide (0 < (checkRow r.1 r.2 headers compiled).length))).decision
              = some SPRTDecision.clean
        · rw [if_pos hdec] at hs'
          exact hupd s' hs'
        · rw [if_neg hdec] at hs'
          exact ih _ hupd s' hs'

/-! ## Claim C4 -/

/-- C4: for every scan with early exit enabled, the SPRT state never reaches
any decision before the configured minimum of 100 rows has been examined
(both over arbitrary flag sequences and inside the scan loop); once the
prefix of rows drives the state to the "clean" decision, no further rows are
scanned; and when no prefix reaches "clean" (in particular when the state
decides "anomalous") and the findings cap is not hit, every row is scanned. -/
theorem sprt_gating_properties :
    (∀ flags : List Bool, (SPRTState.run flags).decision ≠ none →
      sprtMinRows ≤ (SPRTState.run flags).rows_checked) ∧
    (∀ (headers : List String) (compiled : List CompiledRule) (rows : List (ℕ × Row)),
      (∀ s, (scanRows headers compiled rows scanInit).sprt = some s →
        s.decision ≠ none → sprtMinRows ≤ s.rows_checked) ∧
      (∀ k, k < rows.length →
        ((rowFlags headers compiled (rows.take (k+1))).foldl SPRTState.update
          SPRTState.init).decision = some .clean →
        (scanRows headers compiled rows scanInit).rows_scanned ≤ k + 1) ∧
      ((∀ k, k ≤ rows.length →
        ((rowFlags headers compiled (rows.take k)).foldl SPRTState.update
          SPRTState.init).decision ≠ some .clean) →
        (rowCounts headers compiled rows).sum < maxFindingsPerFile →
        (scanRows headers compiled rows scanInit).rows_scanned = rows.length)) := by
  refine ⟨?_, ?_⟩
  · intro flags
    exact sprt_foldl_min_rows flags SPRTState.init (fun h => absurd rfl h)
  · intro headers compiled rows
    refine ⟨?_, ?_, ?_⟩
    · apply scan_sprt_min_rows headers compiled rows scanInit
      intro s hs
      have : s = SPRTState.init := by
        simpa [scanInit] using hs.symm
      subst this
      intro h
      exact absurd rfl h
    · intro k hk hclean
      have := scan_stop_on_clean headers compiled rows scanInit SPRTState.init rfl k hk hclean
      simpa [scanInit] using this
    · intro hnoclean hcap
      have := scan_completes headers compiled rows scanInit SPRTState.init rfl hnoclean
        (by simpa [scanInit] using hcap)
      simpa [scanInit] using this

set_option maxRecDepth 1000000 in
/-- Witness for C4: the minimum-rows bound on a 326-row all-clean run, the
early stop bound on the 326-row all-clean scan, and full scanning of a 3-row
clean file. -/
theorem sprt_gating_properties_witness :
    sprtMinRows ≤ (SPRTState.run (List.replicate 326 false)).rows_checked ∧
    (scanRows [] [] rows326.enum scanInit).rows_scanned ≤ 325 + 1 ∧
    (scanRows [] [] rows3.enum scanInit).rows_scanned = rows3.enum.length := by
  refine ⟨?_, ?_, ?_⟩
  · exact sprt_gating_properties.1 (List.replicate 326 false) (by decide)
  · exact ((sprt_gating_properties.2 [] [] rows326.enum).2.1) 325 (by decide) (by decide)
  · exact ((sprt_gating_properties.2 [] [] rows3.enum).2.2) (by decide) (by decide)

/-! ## Claim C1 -/

set_option maxRecDepth 1000000 in
/-- C1 counterexample: scanning the 150-row file in which no row produces a
finding, with the default SPRT parameters and early exit enabled, produces no
findings and no SPRT decision at all, and scans all 150 rows — the scan does
not reach a "clean" decision at or after row 100 and does not halt before
row 150. -/
theorem sprt_150_row_counterexample :
    cleanScan150.raw_findings = [] ∧
    cleanScan150.rows_scanned = 150 ∧
    cleanScan150.sprt.map SPRTState.decision = some none := by decide

set_option maxRecDepth 1000000 in
/-- C1 amended: with the default parameters (p0=0.001, p1=0.01,
alpha=beta=0.05, minimum 100 rows) a 150-row all-clean file never reaches an
SPRT decision and all 150 rows are scanned; on an all-clean file the "clean"
decision is first reached at row 326. -/
theorem sprt_150_row_amended :
    cleanScan150.raw_findings = [] ∧
    cleanScan150.rows_scanned = 150 ∧
    cleanScan150.sprt.map SPRTState.decision = some none ∧
    (SPRTState.run (List.replicate 325 false)).decision = none ∧
    (SPRTState.run (List.replicate 326 false)).decision = some .clean := by decide

/-! ## Claim C2 -/

/-- C2: `apply_feedback_filter`'s signature does not declare `strategy`, so
every `detect_grounded` call that passes validation, loads at least one rule
and parses at least one data row raises `TypeError` at the feedback-filter
call and never returns the documented result dict. -/
theorem detect_grounded_strategy_type_error :
    applyFeedbackFilterSig.params.contains "strategy" = false ∧
    ∀ (compile : String → Option RegexM) (inp : DetectInput),
      inp.fileExists = true → inp.suffixOk = true → inp.rules ≠ [] → inp.rows ≠ [] →
      detectGrounded compile inp =
        .raised "TypeError: apply_feedback_filter() got an unexpected keyword argument 'strategy'" ∧
      (detectGrounded compile inp).isResult = false := by
  refine ⟨by decide, ?_⟩
  intro compile inp h1 h2 h3 h4
  have hkw : acceptsKeywords applyFeedbackFilterSig feedbackFilterCallKwargs = false := by decide
  constructor
  · unfold detectGrounded
    simp [h1, h2, h3, h4, hkw]
  · unfold detectGrounded
    simp [h1, h2, h3, h4, hkw, DetectOutcome.isResult]

/-- Witness for C2: a call with one rule and one data row raises the
`TypeError`. -/
theorem detect_grounded_strategy_type_error_witness :
    detectGrounded cmpNever inpOneRow =
      .raised "TypeError: apply_feedback_filter() got an unexpected keyword argument 'strategy'" ∧
    (detectGrounded cmpNever inpOneRow).isResult = false :=
  detect_grounded_strategy_type_error.2 cmpNever inpOneRow rfl rfl
    (by decide) (by decide)

/-! ## Claim C10 -/

/-- C10: both reconcile implementations (LLM-backed with heuristic fallback,
and the heuristic itself) always return `converged = True`; one
Triage-Verify-Reconcile round never changes the round counter; the
conditional edge after Reconcile is therefore always "end", and the graph
performs exactly one pass regardless of the configured maximum rounds. -/
theorem verification_single_pass :
    (∀ (oracleR : Option LLMReconcileResponse) (st : VerificationState),
      (reconcileNode oracleR st).converged = true ∧
      (reconcileWithLLM oracleR st).converged = true) ∧
    ∀ (parse : String → Option ℚ) (o : Oracles) (st : VerificationState),
      (runRound parse o st).round_number = st.round_number ∧
      (runRound parse o st).converged = true ∧
      shouldContinue (runRound parse o st) = "end" ∧
      ∀ (oracles : ℕ → Oracles) (fuel : ℕ), 1 ≤ fuel →
        runGraph parse oracles fuel st 0 = (runRound parse (oracles 0) st, 1) := by
  have hrec : ∀ (oracleR : Option LLMReconcileResponse) (st : VerificationState),
      (reconcileNode oracleR st).converged = true := by
    intro oracleR st
    cases oracleR with
    | none => rfl
    | some r => rfl
  have hllm : ∀ (oracleR : Option LLMReconcileResponse) (st : VerificationState),
      (reconcileWithLLM oracleR st).converged = true := by
    intro oracleR st
    cases oracleR with
    | none => rfl
    | some r => rfl
  refine ⟨fun o st => ⟨hrec o st, hllm o st⟩, ?_⟩
  intro parse o st
  have hconv : (runRound parse o st).converged = true := by
    unfold runRound
    exact hrec o.reconcile _
  have hround : (runRound parse o st).round_number = st.round_number := rfl
  have hend : shouldContinue (runRound parse o st) = "end" := by
    unfold shouldContinue
    rw [if_pos]
    exact hconv
  refine ⟨hround, hconv, hend, ?_⟩
  intro oracles fuel hf
  cases fuel with
  | zero => exact absurd hf (by decide)
  | succ k =>
    rw [runGraph]
    have hend0 : shouldContinue (runRound parse (oracles 0) st) = "end" := by
      unfold shouldContinue
      rw [if_pos]
      unfold runRound
      exact hrec (oracles 0).reconcile _
    rw [if_neg (by simp [hend0])]

/-- Witness for C10: one unit of fuel suffices and the graph equals a single
round on the concrete empty state with no LLM available. -/
theorem verification_single_pass_witness :
    runGraph parseNone oraclesNone 1 vstateEmpty 0 =
      (runRound parseNone (oraclesNone 0) vstateEmpty, 1) :=
  ((verification_single_pass.2 parseNone (oraclesNone 0) vstateEmpty).2.2.2) oraclesNone 1
    (by decide)

/-! ## Claim C3 -/

/-- A key without any contributing ledger record has zero tallies. -/
theorem counts_zero_of_not_hasTally (records : List FeedbackRecord) (r t : String)
    (h : hasTally records r t = false) :
    dismissedCount records r t = 0 ∧ confirmedCount records r t = 0 := by
  unfold hasTally at h
  rw [List.any_eq_false] at h
  constructor
  · unfold dismissedCount
    rw [List.length_eq_zero]
    rw [List.filter_eq_nil_iff]
    intro a ha
    simp [h a ha]
  · unfold confirmedCount
    rw [List.length_eq_zero]
    rw [List.filter_eq_nil_iff]
    intro a ha
    simp [h a ha]

/-- C3 counterexample: with one confirmation and one dismissal on record
(net 0) the claim prescribes an unchanged confidence `0.123456`, but the
filter emits `0.1235` — `apply_feedback_filter` also rounds the adjusted
confidence to 4 decimal digits. -/
theorem feedback_round4_counterexample :
    (applyFeedbackFilter recsNetZero [findFiveDigits]).map (fun f => f.confidence)
      = [1235 / 10000] ∧
    max minConfidenceClamp (min maxConfidenceClamp (findFiveDigits.confidence + 0))
      = 123456 / 1000000 ∧
    (1235 / 10000 : ℚ) ≠ 123456 / 1000000 := by
  refine ⟨?_, ?_, by norm_num⟩
  · simp [applyFeedbackFilter, feedbackStep, hasTally, recordHits, confirmedCount,
      dismissedCount, recsNetZero, findFiveDigits, pyRound4, roundHalfEven,
      suppressThreshold, confirmBoost, dismissPenalty, minConfidenceClamp,
      maxConfidenceClamp, FindingType.value, List.filter]
    norm_num [Int.fract]
  · simp [findFiveDigits, minConfidenceClamp, maxConfidenceClamp]
    norm_num [min_def, max_def]

/-- C3 amended: `apply_feedback_filter` removes every finding whose
`(rule_id, finding_type)` pair has more than 3 dismissals and zero
confirmations; every other finding with feedback history has its confidence
adjusted by `net = confirmed - dismissed` (adding `net*0.05` when `net >= 0`,
else subtracting `|net|*0.08`), clamped to `[0.05, 1.0]` and rounded to 4
decimal digits; findings without feedback history pass through unmodified. -/
theorem feedback_filter_amended :
    ∀ (records : List FeedbackRecord) (findings : List GroundedFinding),
      (∀ f ∈ applyFeedbackFilter records findings,
        ¬(suppressThreshold < dismissedCount records f.rule_id f.finding_type.value ∧
          confirmedCount records f.rule_id f.finding_type.value = 0)) ∧
      (∀ f ∈ findings, hasTally records f.rule_id f.finding_type.value = false →
        f ∈ applyFeedbackFilter records findings) ∧
      (∀ f ∈ findings, hasTally records f.rule_id f.finding_type.value = true →
        ¬(suppressThreshold < dismissedCount records f.rule_id f.finding_type.value ∧
          confirmedCount records f.rule_id f.finding_type.value = 0) →
        (let net : ℤ := (confirmedCount records f.rule_id f.finding_type.value : ℤ) -
          (dismissedCount records f.rule_id f.finding_type.value : ℤ)
         let adjustment : ℚ := if 0 ≤ net then net * confirmBoost else net * dismissPenalty
         { f with confidence := pyRound4 (max minConfidenceClamp
             (min maxConfidenceClamp (f.confidence + adjustment))) })
          ∈ applyFeedbackFilter records findings) := by
  intro records findings
  refine ⟨?_, ?_, ?_⟩
  · intro f hf
    by_cases hrec : records = []
    · subst hrec
      intro hsup
      have h0 : dismissedCount [] f.rule_id f.finding_type.value = 0 := rfl
      rw [h0] at hsup
      exact absurd hsup.1 (by decide)
    · rw [applyFeedbackFilter, if_neg hrec] at hf
      rcases List.mem_filterMap.mp hf with ⟨a, ha, hstep⟩
      unfold feedbackStep at hstep
      by_cases ht : hasTally records a.rule_id a.finding_type.value
      · rw [if_neg (by simpa using ht)] at hstep
        by_cases hsup : suppressThreshold < dismissedCount records a.rule_id a.finding_type.value ∧
            confirmedCount records a.rule_id a.finding_type.value = 0
        · rw [if_pos hsup] at hstep
          exact absurd hstep (by simp)
        · rw [if_neg hsup] at hstep
          have hfa := Option.some.inj hstep
          subst hfa
          simpa using hsup
      · rw [if_pos (by simpa using ht)] at hstep
        have hfa := Option.some.inj hstep
        subst hfa
        have := counts_zero_of_not_hasTally records a.rule_id a.finding_type.value
          (by simpa using ht)
        rw [this.1]
        intro hsup
        exact absurd hsup.1 (by decide)
  · intro f hf ht
    by_cases hrec : records = []
    · subst hrec
      rw [applyFeedbackFilter, if_pos rfl]
      exact hf
    · rw [applyFeedbackFilter, if_neg hrec]
      refine List.mem_filterMap.mpr ⟨f, hf, ?_⟩
      unfold feedbackStep
      rw [if_pos (by simp [ht])]
  · intro f hf ht hns
    by_cases hrec : records = []
    · subst hrec
      exact absurd ht (by simp [hasTally])
    · rw [applyFeedbackFilter, if_neg hrec]
      refine List.mem_filterMap.mpr ⟨f, hf, ?_⟩
      unfold feedbackStep
      rw [if_neg (by simp [ht])]
      rw [if_neg hns]

/-- Witness for C3: a finding with no feedback history passes through a
4-dismissal ledger for another rule unmodified; the adjusted form of a
net-zero finding is in the output; and (the spec scenario) a finding whose
pair has 4 dismissals and 0 confirmations is suppressed entirely. -/
theorem feedback_filter_amended_witness :
    findFiveDigits ∈ applyFeedbackFilter recsFourDismissals [findFiveDigits] ∧
    (∃ g ∈ applyFeedbackFilter recsNetZero [findFiveDigits],
      g.confidence = 1235 / 10000) ∧
    applyFeedbackFilter recsFourDismissals [findR1Balance] = [] := by
  refine ⟨?_, ?_, by decide⟩
  · exact (feedback_filter_amended recsFourDismissals [findFiveDigits]).2.1
      findFiveDigits (by simp) (by decide)
  · have h := (feedback_filter_amended recsNetZero [findFiveDigits]).2.2
      findFiveDigits (by simp) (by decide) (by decide)
    refine ⟨_, h, ?_⟩
    have hc : confirmedCount recsNetZero findFiveDigits.rule_id
        findFiveDigits.finding_type.value = 1 := by decide
    have hd : dismissedCount recsNetZero findFiveDigits.rule_id
        findFiveDigits.finding_type.value = 1 := by decide
    simp only [hc, hd]
    simp only [pyRound4, roundHalfEven, confirmBoost, minConfidenceClamp,
      maxConfidenceClamp, findFiveDigits]
    norm_num [Int.fract]

/-! ## Claim C8 -/

/-- C8: the claim that confidence stays in `[0, 1]` after every adjustment
stage is violated by the code at rule creation: `_build_rule_from_explicit`
copies the KB node's confidence prior without clamping, `_check_row` copies
it into the finding, and the feedback filter passes a finding with no
feedback history through unmodified — a node with confidence `1.5` yields a
result finding with confidence `1.5 > 1`. -/
theorem confidence_bound_violation :
    buildRuleFromExplicit (fun _ => true) nodeOverConfident blockOverConfident "kb.json"
      = some ruleOverConfident ∧
    applyFeedbackFilter []
      (scanRows ["amount"] (compileRules cmpX [ruleOverConfident] ["amount"] 0)
        [rowX].enum scanInit).raw_findings
      = [mkRowFinding ruleOverConfident "x" 0 "amount" "x" "x"] ∧
    (mkRowFinding ruleOverConfident "x" 0 "amount" "x" "x").confidence = mkRat 3 2 ∧
    ¬((mkRowFinding ruleOverConfident "x" 0 "amount" "x" "x").confidence ≤ 1) := by
  refine ⟨rfl, rfl, rfl, by decide⟩

/-! ## Claim C9 -/

theorem triageRun_length (mc : List String) :
    ∀ (seen : List (ℤ × String)) (cs : List Cand),
      (triageRun mc seen cs).length = cs.length := by
  intro seen cs
  induction cs generalizing seen with
  | nil => rfl
  | cons c rest ih => simp [triageRun, ih]

theorem triageRun_append (mc : List String) :
    ∀ (cs₁ : List Cand) (seen : List (ℤ × String)) (cs₂ : List Cand),
      triageRun mc seen (cs₁ ++ cs₂) =
        triageRun mc seen cs₁ ++ triageRun mc (seenAfter mc seen cs₁) cs₂ := by
  intro cs₁
  induction cs₁ with
  | nil => intro seen cs₂; rfl
  | cons c rest ih =>
    intro seen cs₂
    simp only [List.cons_append, triageRun, seenAfter, List.append_eq]
    rw [ih]

/-- The verdict the heuristic gives the candidate at position `|cs₁|`. -/
theorem triage_verdict_at (headers : List String) (cs₁ : List Cand) (c : Cand)
    (cs₂ : List Cand) :
    (triageHeuristic headers (cs₁ ++ c :: cs₂)).triage_verdicts.get? cs₁.length =
      some ⟨c, (triageDecide (monetaryCols headers) (seenAfter (monetaryCols headers) [] cs₁) c).1,
        (triageDecide (monetaryCols headers) (seenAfter (monetaryCols headers) [] cs₁) c).2⟩ := by
  unfold triageHeuristic
  dsimp only
  rw [triageRun_append]
  rw [List.get?_append_right (by rw [triageRun_length])]
  rw [triageRun_length]
  simp [triageRun]

theorem mem_monetaryFields_of_contains (headers : List String) (x : String)
    (h : (monetaryCols headers).contains x = true) : x ∈ monetaryFields := by
  have hx : x ∈ monetaryCols headers := by simpa using h
  exact List.mem_of_mem_filter hx

theorem monetary_desc_disjoint : ∀ x ∈ monetaryFields, descriptiveFields.contains x = false := by
  decide

theorem desc_monetary_disjoint : ∀ x ∈ descriptiveFields, monetaryFields.contains x = false := by
  decide

theorem descriptive_not_monetary (headers : List String) (x : String)
    (h : descriptiveFields.contains x = true) :
    (monetaryCols headers).contains x = false := by
  by_contra hc
  have hc' : (monetaryCols headers).contains x = true := by
    cases hcc : (monetaryCols headers).contains x with
    | true => rfl
    | false => exact absurd hcc hc
  have hx := mem_monetaryFields_of_contains headers x hc'
  have hd : x ∈ descriptiveFields := by simpa using h
  have := desc_monetary_disjoint x hd
  have : monetaryFields.contains x = true := by simpa using hx
  simp_all

theorem monetary_not_descriptive (headers : List String) (x : String)
    (h : (monetaryCols headers).contains x = true) :
    descriptiveFields.contains x = false :=
  monetary_desc_disjoint x (mem_monetaryFields_of_contains headers x h)

theorem triageDecide_info (mc : List String) (seen : List (ℤ × String)) (c : Cand)
    (h1 : c.severity = "info") (h2 : mc.contains (pyLower c.field) = false) :
    (triageDecide mc seen c).1 = "dismiss" := by
  unfold triageDecide
  rw [if_pos ⟨h1, by rw [h2]; decide⟩]

theorem triageDecide_generic (headers : List String) (seen : List (ℤ × String))
    (c : Cand) (h1 : c.finding_type = "custom") (h2 : c.matched_value.length ≤ 20)
    (h3 : descriptiveFields.contains (pyLower c.field) = true) :
    (triageDecide (monetaryCols headers) seen c).1 = "dismiss" := by
  by_cases hsev : c.severity = "info"
  · exact triageDecide_info _ seen c hsev
      (descriptive_not_monetary headers _ h3)
  · unfold triageDecide
    rw [if_neg (fun hc => hsev hc.1), if_pos ⟨h1, h2, h3⟩]

theorem triageDecide_dup (mc : List String) (seen : List (ℤ × String)) (c : Cand)
    (ru : String) (h1 : seen.lookup c.row_index = some ru) (h2 : ru ≠ c.rule_id) :
    (triageDecide mc seen c).1 = "dismiss" := by
  unfold triageDecide
  by_cases hA : c.severity = "info" ∧ ¬ mc.contains (pyLower c.field)
  · rw [if_pos hA]
  · rw [if_neg hA]
    by_cases hB : c.finding_type = "custom" ∧ c.matched_value.length ≤ 20 ∧
        descriptiveFields.contains (pyLower c.field)
    · rw [if_pos hB]
    · rw [if_neg hB,
        if_pos ⟨by rw [h1]; rfl, by rw [h1]; exact fun he => h2 (Option.some.inj he)⟩]

theorem triageDecide_escalate (headers : List String) (seen : List (ℤ × String))
    (c : Cand) (h1 : c.severity = "critical" ∨ c.severity = "high")
    (h2 : (monetaryCols headers).contains (pyLower c.field) = true)
    (h3 : seen.lookup c.row_index = none ∨ seen.lookup c.row_index = some c.rule_id) :
    (triageDecide (monetaryCols headers) seen c).1 = "escalate" := by
  have hsev : ¬ c.severity = "info" := by
    rcases h1 with h | h <;> rw [h] <;> simp
  have hdesc : descriptiveFields.contains (pyLower c.field) = false :=
    monetary_not_descriptive headers _ h2
  unfold triageDecide
  rw [if_neg (fun hc => hsev hc.1)]
  rw [if_neg (fun hc => by rw [hdesc] at hc; exact absurd hc.2.2 (by simp))]
  rw [if_neg (fun hc => by
    rcases h3 with h3 | h3
    · rw [h3] at hc; exact absurd hc.1 (by decide)
    · rw [h3] at hc; exact absurd rfl hc.2)]
  rw [if_pos ⟨h1, h2⟩]

/-- C9 counterexample: a low-severity finding on a non-monetary field is kept
by the deterministic triage fallback (only info severity is dismissed by that
branch), contradicting "dismisses every low-severity finding on a
non-monetary field". -/
theorem triage_low_severity_counterexample :
    ((triageHeuristic ["amount", "notes"] [candLowNotes]).triage_verdicts.map
      (fun v => v.triage_decision)) = ["keep"] ∧ ("keep" : String) ≠ "dismiss" := by
  refine ⟨?_, by decide⟩
  rfl

/-- C9 amended: for every candidate list, split as `cs₁ ++ c :: cs₂`, the
deterministic triage fallback gives `c`: "dismiss" when `c` is info-severity
on a non-monetary field; "dismiss" when `c` is a custom-type match of at most
20 characters on an `account_name`/`description`/`name` field; "dismiss" when
an earlier kept candidate registered `c`'s row with a different rule id
(keeping that first one); and "escalate" when `c` is critical/high severity
on a monetary field and its row is unregistered or registered with `c`'s own
rule id. -/
theorem triage_heuristic_amended :
    ∀ (headers : List String) (cs₁ : List Cand) (c : Cand) (cs₂ : List Cand),
      (c.severity = "info" →
        (monetaryCols headers).contains (pyLower c.field) = false →
        ((triageHeuristic headers (cs₁ ++ c :: cs₂)).triage_verdicts.get? cs₁.length).map
          (fun v => v.triage_decision) = some "dismiss") ∧
      (c.finding_type = "custom" → c.matched_value.length ≤ 20 →
        descriptiveFields.contains (pyLower c.field) = true →
        ((triageHeuristic headers (cs₁ ++ c :: cs₂)).triage_verdicts.get? cs₁.length).map
          (fun v => v.triage_decision) = some "dismiss") ∧
      (∀ ru, (seenAfter (monetaryCols headers) [] cs₁).lookup c.row_index = some ru →
        ru ≠ c.rule_id →
        ((triageHeuristic headers (cs₁ ++ c :: cs₂)).triage_verdicts.get? cs₁.length).map
          (fun v => v.triage_decision) = some "dismiss") ∧
      ((c.severity = "critical" ∨ c.severity = "high") →
        (monetaryCols headers).contains (pyLower c.field) = true →
        ((seenAfter (monetaryCols headers) [] cs₁).lookup c.row_index = none ∨
          (seenAfter (monetaryCols headers) [] cs₁).lookup c.row_index = some c.rule_id) →
        ((triageHeuristic headers (cs₁ ++ c :: cs₂)).triage_verdicts.get? cs₁.length).map
          (fun v => v.triage_decision) = some "escalate") := by
  intro headers cs₁ c cs₂
  have hat := triage_verdict_at headers cs₁ c cs₂
  refine ⟨?_, ?_, ?_, ?_⟩
  · intro h1 h2
    rw [hat]
    simp only [Option.map_some']
    rw [triageDecide_info _ _ c h1 h2]
  · intro h1 h2 h3
    rw [hat]
    simp only [Option.map_some']
    rw [triageDecide_generic headers _ c h1 h2 h3]
  · intro ru h1 h2
    rw [hat]
    simp only [Option.map_some']
    rw [triageDecide_dup _ _ c ru h1 h2]
  · intro h1 h2 h3
    rw [hat]
    simp only [Option.map_some']
    rw [triageDecide_escalate headers _ c h1 h2 h3]

/-- Witness for C9: the critical candidate on the monetary `amount` column of
a fresh state is escalated. -/
theorem triage_heuristic_amended_witness :
    ((triageHeuristic ["amount", "notes"] [candCritAmount]).triage_verdicts.get? 0).map
      (fun v => v.triage_decision) = some "escalate" :=
  (triage_heuristic_amended ["amount", "notes"] [] candCritAmount []).2.2.2
    (Or.inl rfl) (by decide) (Or.inl rfl)

/-! ## Claim C6 -/

/-- Every compiled entry's rule comes from the input rule list. -/
theorem compileRules_rule_mem (compile : String → Option RegexM)
    (rules : List DetectionRule) (headers : List String) (min_confidence : ℚ)
    (cr : CompiledRule) (hcr : cr ∈ compileRules compile rules headers min_confidence) :
    cr.rule ∈ rules := by
  rcases List.mem_filterMap.mp hcr with ⟨r, hr, hstep⟩
  have : cr.rule = r := by
    by_cases h1 : r.pattern = ""
    · rw [if_pos h1] at hstep; cases hstep
    · rw [if_neg h1] at hstep
      by_cases h2 : r.confidence < min_confidence
      · rw [if_pos h2] at hstep; cases hstep
      · rw [if_neg h2] at hstep
        cases hc : compile r.pattern with
        | none => rw [hc] at hstep; cases hstep
        | some rx =>
          rw [hc] at hstep
          dsimp only at hstep
          by_cases h3 : r.field_targets ≠ []
          · rw [if_pos h3] at hstep
            by_cases h4 : resolveTargets r.field_targets headers = []
            · rw [if_pos h4] at hstep; cases hstep
            · rw [if_neg h4] at hstep
              cases Option.some.inj hstep
              rfl
          · rw [if_neg h3] at hstep
            cases Option.some.inj hstep
            rfl
  rw [this]
  exact hr

/-- A rule with declared targets none of which resolves against the headers
is dropped by `_compile_rules`. -/
theorem compileRules_drops_unresolved (compile : String → Option RegexM)
    (rules : List DetectionRule) (headers : List String) (min_confidence : ℚ)
    (rule : DetectionRule) (hne : rule.field_targets ≠ [])
    (hunres : ∀ t ∈ rule.field_targets, t ∉ headers ∧ headerLower headers (pyLower t) = none) :
    ∀ cr ∈ compileRules compile rules headers min_confidence, cr.rule ≠ rule := by
  have hres : resolveTargets rule.field_targets headers = [] := by
    unfold resolveTargets
    rw [List.filterMap_eq_nil_iff]
    intro t ht
    rw [if_neg (hunres t ht).1, (hunres t ht).2]
  intro cr hcr heq
  rcases List.mem_filterMap.mp hcr with ⟨r, _, hstep⟩
  by_cases h1 : r.pattern = ""
  · rw [if_pos h1] at hstep; cases hstep
  · rw [if_neg h1] at hstep
    by_cases h2 : r.confidence < min_confidence
    · rw [if_pos h2] at hstep; cases hstep
    · rw [if_neg h2] at hstep
      cases hc : compile r.pattern with
      | none => rw [hc] at hstep; cases hstep
      | some rx =>
        rw [hc] at hstep
        dsimp only at hstep
        by_cases h3 : r.field_targets ≠ []
        · rw [if_pos h3] at hstep
          by_cases h4 : resolveTargets r.field_targets headers = []
          · rw [if_pos h4] at hstep; cases hstep
          · rw [if_neg h4] at hstep
            cases Option.some.inj hstep
            dsimp only at heq
            rw [heq] at h4
            exact h4 hres
        · rw [if_neg h3] at hstep
          cases Option.some.inj hstep
          dsimp only at heq
          rw [heq] at h3
          exact h3 hne

/-- Every finding of `_check_row` carries the rule id of some compiled rule. -/
theorem checkRow_rule_id (row_idx : ℕ) (row : Row) (headers : List String)
    (compiled_rules : List CompiledRule) (f : GroundedFinding)
    (hf : f ∈ checkRow row_idx row headers compiled_rules) :
    ∃ cr ∈ compiled_rules, f.rule_id = cr.rule.rule_id := by
  rcases List.mem_filterMap.mp hf with ⟨cr, hcr, hsome⟩
  rcases List.exists_of_findSome?_eq_some hsome with ⟨field, _, hfield⟩
  refine ⟨cr, hcr, ?_⟩
  by_cases hv : row.get field = ""
  · rw [if_pos hv] at hfield; cases hfield
  · rw [if_neg hv] at hfield
    cases hm : cr.regex.search (row.get field) with
    | none => rw [hm] at hfield; cases hfield
    | some m =>
      rw [hm] at hfield
      cases Option.some.inj hfield
      rfl

/-- C6: a rule that declares target field names none of which resolve
(exactly or case-insensitively) to a header of the file under scan is dropped
entirely by `_compile_rules`, and — provided no other rule shares its id —
no finding of `_check_row` on that file ever carries its rule id; there is no
fallback to scanning every column for such a rule. -/
theorem unresolved_rule_never_fires
    (compile : String → Option RegexM) (rules : List DetectionRule)
    (headers : List String) (min_confidence : ℚ) (rule : DetectionRule)
    (_hmem : rule ∈ rules) (hne : rule.field_targets ≠ [])
    (hunres : ∀ t ∈ rule.field_targets, t ∉ headers ∧ headerLower headers (pyLower t) = none)
    (hid : ∀ r' ∈ rules, r'.rule_id = rule.rule_id → r' = rule) :
    (∀ cr ∈ compileRules compile rules headers min_confidence, cr.rule ≠ rule) ∧
    (∀ (row_idx : ℕ) (row : Row) (f : GroundedFinding),
      f ∈ checkRow row_idx row headers (compileRules compile rules headers min_confidence) →
      f.rule_id ≠ rule.rule_id) := by
  have hdrop := compileRules_drops_unresolved compile rules headers min_confidence rule
    hne hunres
  refine ⟨hdrop, ?_⟩
  intro row_idx row f hf heq
  rcases checkRow_rule_id row_idx row headers _ f hf with ⟨cr, hcr, hfid⟩
  have hcrrule : cr.rule = rule :=
    hid cr.rule (compileRules_rule_mem compile rules headers min_confidence cr hcr)
      (by rw [← hfid, heq])
  exact hdrop cr hcr hcrrule

/-- Witness for C6: with a resolvable rule and an unresolvable one loaded,
the finding produced on a matching row does not carry the unresolvable
rule's id. -/
theorem unresolved_rule_never_fires_witness :
    (mkRowFinding ruleAmount "x" 0 "amount" "x" "x").rule_id ≠ ruleUnresolved.rule_id :=
  (unresolved_rule_never_fires cmpX [ruleAmount, ruleUnresolved] ["amount"] 0
    ruleUnresolved (by simp) (by simp [ruleUnresolved])
    (by intro t ht; simp [ruleUnresolved] at ht; subst ht; exact ⟨by simp, rfl⟩)
    (by
      intro r' hr' hid
      simp [ruleAmount, ruleUnresolved] at hr' hid ⊢
      rcases hr' with h | h
      · rw [h] at hid; simp [ruleAmount, ruleUnresolved] at hid
      · exact h)).2 0 rowX
    (mkRowFinding ruleAmount "x" 0 "amount" "x" "x") (by rw [show checkRow 0 rowX ["amount"]
      (compileRules cmpX [ruleAmount, ruleUnresolved] ["amount"] 0)
      = [mkRowFinding ruleAmount "x" 0 "amount" "x" "x"] from rfl]; exact List.mem_singleton.mpr rfl)

/-! ## Claim C5 -/

/-- The outliers of one flagged column are all reported. -/
theorem columnOutliers_mem_detect (parse : String → Option ℚ) (rows : List Row)
    (headers : List String) (col : String) (hcol : col ∈ headers)
    (o : NumericOutlier) (ho : o ∈ columnOutliers parse rows (accountCol headers) col) :
    o ∈ detectNumericOutliers parse rows headers := by
  unfold detectNumericOutliers
  exact List.mem_flatMap.mpr ⟨col, hcol, ho⟩

/-- Unfolding of `columnOutliers` on a column that passes all three guards. -/
theorem columnOutliers_eq (parse : String → Option ℚ) (rows : List Row)
    (account_col : Option String) (col : String)
    (hkw : (numericColKeywords.any (fun kw => strContains (pyLower col) kw)) = true)
    (hlen : 3 ≤ (columnValues parse rows col).length)
    (hmed : medianAbs (columnValues parse rows col) ≠ 0) :
    columnOutliers parse rows account_col col =
      (columnValues parse rows col).filterMap
        (outlierFor account_col col (medianAbs (columnValues parse rows col))) := by
  unfold columnOutliers
  rw [if_neg (by simp [hkw])]
  rw [if_neg (by omega)]
  rw [if_neg hmed]

/-- C5 counterexample: on the 4-row `rate` column `0.1, 0.1, 0.1, 15`, the
flagged value `15` has `value * median = 1.5`, which is not within 5% of 1.0,
yet the scanner classifies it `sign_reversal` with confidence `0.95` — the
claim demands a generic magnitude outlier with confidence `0.85` there. -/
theorem numeric_outlier_band_counterexample :
    detectNumericOutliers parseRate rateRows ["rate"] =
      [{ finding_type := "sign_reversal", severity := "critical", account := "",
         row_index := 3, field := "rate", value := 15, confidence := 95/100 }] ∧
    (15 : ℚ) * mkRat 1 10 = 3/2 ∧
    ¬(|(15 : ℚ) * mkRat 1 10 - 1| ≤ 5/100) := by
  refine ⟨?_, by norm_num [Rat.mkRat_eq_div], by norm_num [Rat.mkRat_eq_div, abs, max_def]⟩
  have e0 : ∀ (i : ℕ) (row : Row),
      outlierFor none "rate" (mkRat 1 10) (i, row, mkRat 1 10) = none := by
    intro i row
    unfold outlierFor
    rw [if_neg (by norm_num [Rat.mkRat_eq_div, abs, max_def]),
      if_neg (by norm_num [Rat.mkRat_eq_div, abs, max_def])]
  have e3 : outlierFor none "rate" (mkRat 1 10) (3, [("rate", "15")], 15) =
      some { finding_type := "sign_reversal", severity := "critical", account := "",
             row_index := 3, field := "rate", value := 15, confidence := 95/100 } := by
    unfold outlierFor
    rw [if_pos (by norm_num [Rat.mkRat_eq_div, abs, max_def])]
    norm_num [Rat.mkRat_eq_div, abs, max_def]
  unfold detectNumericOutliers
  rw [show accountCol ["rate"] = none from by decide]
  simp only [List.flatMap_cons, List.flatMap_nil, List.append_nil]
  rw [columnOutliers_eq parseRate rateRows none "rate" (by decide) (by decide) (by decide)]
  rw [show medianAbs (columnValues parseRate rateRows "rate") = mkRat 1 10 from by decide]
  rw [show columnValues parseRate rateRows "rate" =
    [(0, [("rate", "0.1")], mkRat 1 10), (1, [("rate", "0.1")], mkRat 1 10),
     (2, [("rate", "0.1")], mkRat 1 10), (3, [("rate", "15")], 15)] from by decide]
  simp [List.filterMap_cons, e0, e3]

/-- C5 amended: on a rate/amount-keyword column with at least 3 non-zero
numeric values and non-zero median of absolute values, the scanner flags
every value whose absolute-value ratio to the median exceeds 10 as a critical
outlier, classifying it `sign_reversal` with confidence `0.95` exactly when
`abs(value) * median` lies strictly between `0.5` and `2.0` (in particular
whenever the product is within 5% of 1.0 — such a value is never a plain
magnitude outlier), and otherwise `balance_mismatch` with confidence `0.85`;
a value whose ratio is below 0.1 on a column named exactly `rate`/`fx_rate`
yields a high-severity `balance_mismatch` with confidence `0.75`. -/
theorem numeric_outlier_amended :
    ∀ (parse : String → Option ℚ) (rows : List Row) (headers : List String) (col : String),
      col ∈ headers →
      (numericColKeywords.any (fun kw => strContains (pyLower col) kw)) = true →
      3 ≤ (columnValues parse rows col).length →
      medianAbs (columnValues parse rows col) ≠ 0 →
      ∀ t ∈ columnValues parse rows col,
        (10 < |t.2.2| / medianAbs (columnValues parse rows col) →
          ∃ o ∈ detectNumericOutliers parse rows headers,
            o.row_index = t.1 ∧ o.field = col ∧ o.value = t.2.2 ∧ o.severity = "critical" ∧
            ((1/2 < |t.2.2| * medianAbs (columnValues parse rows col) ∧
              |t.2.2| * medianAbs (columnValues parse rows col) < 2) →
              o.finding_type = "sign_reversal" ∧ o.confidence = 95/100) ∧
            (¬(1/2 < |t.2.2| * medianAbs (columnValues parse rows col) ∧
              |t.2.2| * medianAbs (columnValues parse rows col) < 2) →
              o.finding_type = "balance_mismatch" ∧ o.confidence = 85/100) ∧
            (abs (|t.2.2| * medianAbs (columnValues parse rows col) - 1) ≤ 5/100 →
              o.finding_type = "sign_reversal")) ∧
        (|t.2.2| / medianAbs (columnValues parse rows col) < 1/10 →
          (pyLower col = "rate" ∨ pyLower col = "fx_rate") →
          ∃ o ∈ detectNumericOutliers parse rows headers,
            o.row_index = t.1 ∧ o.field = col ∧ o.value = t.2.2 ∧
            o.finding_type = "balance_mismatch" ∧ o.severity = "high" ∧
            o.confidence = 75/100) := by
  intro parse rows headers col hcol hkw hlen hmed t ht
  have hco := columnOutliers_eq parse rows (accountCol headers) col hkw hlen hmed
  constructor
  · intro hrat
    set median := medianAbs (columnValues parse rows col) with hmdef
    by_cases hinv : 1/2 < |t.2.2| * median ∧ |t.2.2| * median < 2
    · have hsome : outlierFor (accountCol headers) col median t =
          some { finding_type := "sign_reversal", severity := "critical",
                 account := (match accountCol headers with
                   | some ac => (t.2.1).get ac
                   | none => ""), row_index := t.1, field := col, value := t.2.2,
                 confidence := 95/100 } := by
        unfold outlierFor
        rw [if_pos hrat]
        have hb : decide (1/2 < |t.2.2| * median ∧ |t.2.2| * median < 2) = true :=
          decide_eq_true hinv
        simp only [hb]
        rfl
      exact ⟨_, columnOutliers_mem_detect parse rows headers col hcol _
        (hco ▸ List.mem_filterMap.mpr ⟨t, ht, hsome⟩), rfl, rfl, rfl, rfl,
        fun _ => ⟨rfl, rfl⟩, fun h => absurd hinv h, fun _ => rfl⟩
    · have hsome : outlierFor (accountCol headers) col median t =
          some { finding_type := "balance_mismatch", severity := "critical",
                 account := (match accountCol headers with
                   | some ac => (t.2.1).get ac
                   | none => ""), row_index := t.1, field := col, value := t.2.2,
                 confidence := 85/100 } := by
        unfold outlierFor
        rw [if_pos hrat]
        have hb : decide (1/2 < |t.2.2| * median ∧ |t.2.2| * median < 2) = false :=
          decide_eq_false hinv
        simp only [hb]
        rfl
      refine ⟨_, columnOutliers_mem_detect parse rows headers col hcol _
        (hco ▸ List.mem_filterMap.mpr ⟨t, ht, hsome⟩), rfl, rfl, rfl, rfl,
        fun h => absurd h hinv, fun _ => ⟨rfl, rfl⟩, ?_⟩
      intro hnear
      have habs := abs_le.mp hnear
      exact absurd ⟨by linarith [habs.1], by linarith [habs.2]⟩ hinv
  · intro hrat hcols
    have hnot : ¬ (10 < |t.2.2| / medianAbs (columnValues parse rows col)) := by
      intro h
      linarith
    have hsome : outlierFor (accountCol headers) col (medianAbs (columnValues parse rows col)) t =
        some { finding_type := "balance_mismatch", severity := "high",
               account := (match accountCol headers with
                 | some ac => (t.2.1).get ac
                 | none => ""), row_index := t.1, field := col, value := t.2.2,
               confidence := 75/100 } := by
      unfold outlierFor
      rw [if_neg hnot, if_pos ⟨hrat, hcols⟩]
    exact ⟨_, columnOutliers_mem_detect parse rows headers col hcol _
      (hco ▸ List.mem_filterMap.mpr ⟨t, ht, hsome⟩), rfl, rfl, rfl, rfl, rfl, rfl⟩

/-- Witness for C5: the value `15` of the concrete `rate` column is reported
as a `sign_reversal` of confidence `0.95` (its product with the median `0.1`
is `1.5`, inside the code's `(0.5, 2.0)` inversion band). -/
theorem numeric_outlier_amended_witness :
    ∃ o ∈ detectNumericOutliers parseRate rateRows ["rate"],
      o.row_index = 3 ∧ o.field = "rate" ∧ o.value = 15 ∧ o.severity = "critical" ∧
      o.finding_type = "sign_reversal" ∧ o.confidence = 95/100 := by
  have hmm : medianAbs (columnValues parseRate rateRows "rate") = mkRat 1 10 := by decide
  have h := (numeric_outlier_amended parseRate rateRows ["rate"] "rate" (by simp)
    (by decide) (by decide) (by decide) (3, [("rate", "15")], 15) (by decide)).1
    (by rw [hmm]; norm_num [Rat.mkRat_eq_div, abs, max_def])
  obtain ⟨o, ho, h1, h2, h3, h4, h5, _, _⟩ := h
  have hinv : 1/2 < |((3, ([("rate", "15")] : Row), (15:ℚ))).2.2| *
        medianAbs (columnValues parseRate rateRows "rate") ∧
      |((3, ([("rate", "15")] : Row), (15:ℚ))).2.2| *
        medianAbs (columnValues parseRate rateRows "rate") < 2 := by
    rw [hmm]
    norm_num [Rat.mkRat_eq_div, abs, max_def]
  exact ⟨o, ho, h1, h2, h3, h4, (h5 hinv).1, (h5 hinv).2⟩

/-! ## Claim C7 -/

theorem mkFinalFromVerified_key (v : RFind) : (mkFinalFromVerified v).key = v.key := rfl

theorem mkFinalFromNumeric_key (nc : NumericCheck) :
    (mkFinalFromNumeric nc).key = nc.key := rfl

theorem mkFinalFromNew_key (nf : NewFinding) : (mkFinalFromNew nf).key = nf.key := rfl

/-- The de-duplication fold preserves the seen-keys/unique-keys invariant. -/
theorem foldl_addIfNew_inv {α : Type} (keyf : α → RKey) (mk : α → FinalFinding)
    (hkey : ∀ a, (mk a).key = keyf a) :
    ∀ (l : List α) (acc : DedupAcc),
      (∀ o ∈ acc.all_findings, o.key ∈ acc.seen_keys) →
      (acc.all_findings.map FinalFinding.key).Nodup →
      (∀ o ∈ (l.foldl (fun a x => addIfNew a (keyf x) (mk x)) acc).all_findings,
        o.key ∈ (l.foldl (fun a x => addIfNew a (keyf x) (mk x)) acc).seen_keys) ∧
      ((l.foldl (fun a x => addIfNew a (keyf x) (mk x)) acc).all_findings.map
        FinalFinding.key).Nodup := by
  intro l
  induction l with
  | nil => intro acc h1 h2; exact ⟨h1, h2⟩
  | cons x rest ih =>
    intro acc h1 h2
    simp only [List.foldl_cons]
    apply ih
    · intro o ho
      unfold addIfNew at ho ⊢
      by_cases hk : keyf x ∈ acc.seen_keys
      · rw [if_pos hk] at ho ⊢
        exact h1 o ho
      · rw [if_neg hk] at ho ⊢
        dsimp only at ho ⊢
        rcases List.mem_append.mp ho with ho | ho
        · exact List.mem_append_left _ (h1 o ho)
        · rcases List.mem_singleton.mp ho with rfl
          rw [hkey x]
          exact List.mem_append_right _ (List.mem_singleton.mpr rfl)
    · unfold addIfNew
      by_cases hk : keyf x ∈ acc.seen_keys
      · rw [if_pos hk]
        exact h2
      · rw [if_neg hk]
        dsimp only
        rw [List.map_append, List.nodup_append]
        refine ⟨h2, by simp, ?_⟩
        intro k hk1 hk2
        simp only [List.map_cons, List.map_nil, List.mem_singleton, hkey x] at hk2
        rcases List.mem_map.mp hk1 with ⟨o, ho, rfl⟩
        exact hk (hk2 ▸ h1 o ho)

/-- The de-duplication fold only grows the output and the seen keys. -/
theorem foldl_addIfNew_mono {α : Type} (keyf : α → RKey) (mk : α → FinalFinding) :
    ∀ (l : List α) (acc : DedupAcc),
      (∀ o ∈ acc.all_findings,
        o ∈ (l.foldl (fun a x => addIfNew a (keyf x) (mk x)) acc).all_findings) ∧
      (∀ k ∈ acc.seen_keys,
        k ∈ (l.foldl (fun a x => addIfNew a (keyf x) (mk x)) acc).seen_keys) := by
  intro l
  induction l with
  | nil => intro acc; exact ⟨fun o ho => ho, fun k hk => hk⟩
  | cons x rest ih =>
    intro acc
    simp only [List.foldl_cons]
    constructor
    · intro o ho
      apply (ih _).1
      unfold addIfNew
      by_cases hk : keyf x ∈ acc.seen_keys
      · rw [if_pos hk]; exact ho
      · rw [if_neg hk]; exact List.mem_append_left _ ho
    · intro k hk0
      apply (ih _).2
      unfold addIfNew
      by_cases hk : keyf x ∈ acc.seen_keys
      · rw [if_pos hk]; exact hk0
      · rw [if_neg hk]; exact List.mem_append_left _ hk0

/-- Every output entry of the fold is an old entry or built from the list. -/
theorem foldl_addIfNew_src {α : Type} (keyf : α → RKey) (mk : α → FinalFinding) :
    ∀ (l : List α) (acc : DedupAcc) (o : FinalFinding),
      o ∈ (l.foldl (fun a x => addIfNew a (keyf x) (mk x)) acc).all_findings →
      o ∈ acc.all_findings ∨ ∃ a ∈ l, o = mk a := by
  intro l
  induction l with
  | nil => intro acc o ho; exact Or.inl ho
  | cons x rest ih =>
    intro acc o ho
    simp only [List.foldl_cons] at ho
    rcases ih _ o ho with hold | ⟨a, ha, rfl⟩
    · unfold addIfNew at hold
      by_cases hk : keyf x ∈ acc.seen_keys
      · rw [if_pos hk] at hold
        exact Or.inl hold
      · rw [if_neg hk] at hold
        dsimp only at hold
        rcases List.mem_append.mp hold with h | h
        · exact Or.inl h
        · rcases List.mem_singleton.mp h with rfl
          exact Or.inr ⟨x, List.mem_cons_self x rest, rfl⟩
    · exact Or.inr ⟨a, List.mem_cons_of_mem x ha, rfl⟩

/-- The fold keeps the first element carrying each key. -/
theorem foldl_addIfNew_first {α : Type} (keyf : α → RKey) (mk : α → FinalFinding) :
    ∀ (l : List α) (acc : DedupAcc) (a : α), a ∈ l → keyf a ∉ acc.seen_keys →
      ∃ a', l.find? (fun b => decide (keyf b = keyf a)) = some a' ∧
        mk a' ∈ (l.foldl (fun a x => addIfNew a (keyf x) (mk x)) acc).all_findings := by
  intro l
  induction l with
  | nil => intro acc a ha; cases ha
  | cons x rest ih =>
    intro acc a ha hk
    by_cases hx : keyf x = keyf a
    · refine ⟨x, by rw [List.find?_cons_of_pos _ (by simp [hx])], ?_⟩
      simp only [List.foldl_cons]
      apply (foldl_addIfNew_mono keyf mk rest _).1
      unfold addIfNew
      rw [if_neg (hx ▸ hk)]
      exact List.mem_append_right _ (List.mem_singleton.mpr rfl)
    · have ha' : a ∈ rest := by
        rcases List.mem_cons.mp ha with rfl | h
        · exact absurd rfl hx
        · exact h
      have hk' : keyf a ∉ (addIfNew acc (keyf x) (mk x)).seen_keys := by
        unfold addIfNew
        by_cases hkx : keyf x ∈ acc.seen_keys
        · rw [if_pos hkx]; exact hk
        · rw [if_neg hkx]
          dsimp only
          intro hmem
          rcases List.mem_append.mp hmem with h | h
          · exact hk h
          · exact hx (List.mem_singleton.mp h).symm
      rcases ih (addIfNew acc (keyf x) (mk x)) a ha' hk' with ⟨a', hfind, hmem⟩
      refine ⟨a', ?_, by simpa only [List.foldl_cons] using hmem⟩
      rw [List.find?_cons_of_neg _ (by simp [hx]), hfind]

/-- C7 counterexample: two verified findings share the key
`("acct", 3, "sign_reversal")` with confidences `0.4` (first) and `0.9`
(second); the heuristic reconcile keeps the first — not the
higher-confidence one — and a finding carrying both a rule confidence `1`
and an AI confidence `0.5` is assigned `0.5`, not
`max(1*0.4, 0.5*0.6) = 0.4`. -/
theorem reconcile_merge_counterexample :
    ((reconcileHeuristic 2 0 [rfLow, rfHigh] [] []).final_findings.map
      (fun f => (f.finding_id, f.confidence))) = [("a", 2/5)] ∧
    (2/5 : ℚ) < 9/10 ∧
    ((reconcileHeuristic 1 0 [rfBoth] [] []).final_findings.map
      (fun f => f.confidence)) = [1/2] ∧
    max ((1:ℚ) * (2/5)) ((1/2) * (3/5)) = 2/5 ∧ (1/2 : ℚ) ≠ 2/5 := by
  refine ⟨?_, by norm_num, ?_, by norm_num [max_def], by norm_num⟩
  · simp [reconcileHeuristic, reconcileCollect, addIfNew, RFind.key, rfLow, rfHigh,
      mkFinalFromVerified, List.insertionSort, List.orderedInsert]
    norm_num [pyRound4, roundHalfEven, Int.fract]
  · simp [reconcileHeuristic, reconcileCollect, addIfNew, RFind.key, rfBoth,
      mkFinalFromVerified, List.insertionSort, List.orderedInsert]
    norm_num [pyRound4, roundHalfEven, Int.fract]

/-- C7 amended: `_reconcile_heuristic` de-duplicates verified findings,
numeric checks and novel findings by the key `(account, row, finding-type)`
(numeric checks under `("", row, anomaly_type)`), keeping the FIRST entry in
priority order (verified, then numeric, then novel; first occurrence within
each list) rather than the higher-confidence one; each verified entry's final
confidence is its AI-adjusted confidence when present, else its incoming
confidence, rounded to 4 digits (no `max(rule*0.4, ai*0.6)` combination);
the final list never contains two entries with the same key, is sorted by
severity rank then descending confidence, and the workflow is marked
converged. -/
theorem reconcile_heuristic_amended :
    ∀ (cc dc : ℕ) (verified : List RFind) (ncs : List NumericCheck)
      (nfs : List NewFinding),
      (((reconcileHeuristic cc dc verified ncs nfs).final_findings.map
        FinalFinding.key).Nodup) ∧
      ((reconcileHeuristic cc dc verified ncs nfs).final_findings.Sorted reconcileKeyLE) ∧
      ((reconcileHeuristic cc dc verified ncs nfs).converged = true) ∧
      (∀ o ∈ (reconcileHeuristic cc dc verified ncs nfs).final_findings,
        (∃ v ∈ verified, o = mkFinalFromVerified v) ∨
        (∃ nc ∈ ncs, o = mkFinalFromNumeric nc) ∨
        (∃ nf ∈ nfs, o = mkFinalFromNew nf)) ∧
      (∀ v ∈ verified, ∃ v',
        verified.find? (fun w => decide (w.key = v.key)) = some v' ∧
        mkFinalFromVerified v' ∈ (reconcileHeuristic cc dc verified ncs nfs).final_findings) := by
  intro cc dc verified ncs nfs
  have hperm : List.Perm
      ((reconcileCollect verified ncs nfs).all_findings.insertionSort reconcileKeyLE)
      ((reconcileCollect verified ncs nfs).all_findings) :=
    List.perm_insertionSort reconcileKeyLE _
  have hfinal : (reconcileHeuristic cc dc verified ncs nfs).final_findings =
      (reconcileCollect verified ncs nfs).all_findings.insertionSort reconcileKeyLE := rfl
  have hinv1 := foldl_addIfNew_inv RFind.key mkFinalFromVerified mkFinalFromVerified_key
    verified ⟨[], []⟩ (by simp) (by simp)
  have hinv2 := foldl_addIfNew_inv NumericCheck.key mkFinalFromNumeric mkFinalFromNumeric_key
    ncs _ hinv1.1 hinv1.2
  have hinv3 := foldl_addIfNew_inv NewFinding.key mkFinalFromNew mkFinalFromNew_key
    nfs _ hinv2.1 hinv2.2
  have hcollect : (reconcileCollect verified ncs nfs).all_findings.map FinalFinding.key
      |>.Nodup := hinv3.2
  refine ⟨?_, ?_, rfl, ?_, ?_⟩
  · rw [hfinal]
    exact ((hperm.map FinalFinding.key).nodup_iff).mpr hcollect
  · rw [hfinal]
    exact List.sorted_insertionSort reconcileKeyLE _
  · intro o ho
    rw [hfinal] at ho
    have ho' := hperm.mem_iff.mp ho
    rcases foldl_addIfNew_src NewFinding.key mkFinalFromNew nfs _ o ho' with h | h
    · rcases foldl_addIfNew_src NumericCheck.key mkFinalFromNumeric ncs _ o h with h' | h'
      · rcases foldl_addIfNew_src RFind.key mkFinalFromVerified verified _ o h' with h'' | h''
        · simp at h''
        · exact Or.inl h''
      · exact Or.inr (Or.inl h')
    · exact Or.inr (Or.inr h)
  · intro v hv
    rcases foldl_addIfNew_first RFind.key mkFinalFromVerified verified ⟨[], []⟩ v hv
      (by simp) with ⟨v', hfind, hmem⟩
    refine ⟨v', hfind, ?_⟩
    rw [hfinal]
    apply hperm.mem_iff.mpr
    apply (foldl_addIfNew_mono NewFinding.key mkFinalFromNew nfs _).1
    apply (foldl_addIfNew_mono NumericCheck.key mkFinalFromNumeric ncs _).1
    exact hmem

/-! ## Exactness of the SPRT conditions

The decidable natural-number tests used by `SPRTState.update` agree with the
real-valued log-likelihood comparisons of `_SPRTState.update`. -/

/-- After `f` finding rows and `m` clean rows, the natural-number test
`19 * 10^f * 110^m <= 111^m` is exactly the real comparison `llr <= _SPRT_B`. -/
theorem sprtCleanCond_iff (f m : ℕ) :
    sprtCleanCond f m ↔ llrReal f (f + m) ≤ sprtB := by
  unfold sprtCleanCond llrReal sprtB sprtP0 sprtP1 sprtAlpha sprtBeta
  rw [Nat.add_sub_cancel_left]
  have e1 : (1:ℝ)/100 / (1/1000) = 10 := by norm_num
  have e2 : (1 - (1:ℝ)/100) / (1 - 1/1000) = 110/111 := by norm_num
  have e3 : (1:ℝ)/20 / (1 - 1/20) = 1/19 := by norm_num
  rw [e1, e2, e3]
  have key : (f : ℝ) * Real.log 10 + (m : ℝ) * Real.log (110/111) ≤ Real.log (1/19)
      ↔ Real.log (19 * ((10:ℝ) ^ f * 110 ^ m)) ≤ Real.log ((111:ℝ) ^ m) := by
    rw [Real.log_div (by norm_num) (by norm_num),
        Real.log_div (by norm_num) (by norm_num),
        Real.log_mul (by norm_num) (by positivity),
        Real.log_mul (by positivity) (by positivity),
        Real.log_one]
    simp only [Real.log_pow]
    constructor <;> intro h <;> linarith
  rw [key, Real.log_le_log_iff (by positivity) (by positivity)]
  constructor <;> intro h <;> exact_mod_cast h

/-- After `f` finding rows and `m` clean rows, the natural-number test
`19 * 111^m <= 10^f * 110^m` is exactly the real comparison `llr >= _SPRT_A`. -/
theorem sprtAnomCond_iff (f m : ℕ) :
    sprtAnomCond f m ↔ sprtA ≤ llrReal f (f + m) := by
  unfold sprtAnomCond llrReal sprtA sprtP0 sprtP1 sprtAlpha sprtBeta
  rw [Nat.add_sub_cancel_left]
  have e1 : (1:ℝ)/100 / (1/1000) = 10 := by norm_num
  have e2 : (1 - (1:ℝ)/100) / (1 - 1/1000) = 110/111 := by norm_num
  have e3 : (1 - (1:ℝ)/20) / (1/20) = 19 := by norm_num
  rw [e1, e2, e3]
  have key : Real.log 19 ≤ (f : ℝ) * Real.log 10 + (m : ℝ) * Real.log (110/111)
      ↔ Real.log (19 * (111:ℝ) ^ m) ≤ Real.log ((10:ℝ) ^ f * 110 ^ m) := by
    rw [Real.log_div (by norm_num) (by norm_num),
        Real.log_mul (by norm_num) (by positivity),
        Real.log_mul (by positivity) (by positivity)]
    simp only [Real.log_pow]
    constructor <;> intro h <;> linarith
  rw [key, Real.log_le_log_iff (by positivity) (by positivity)]
  constructor <;> intro h <;> exact_mod_cast h

/-- Witness for C7: in the two-duplicate state, the representative of the
shared key is the first-listed verified finding. -/
theorem reconcile_heuristic_amended_witness :
    ∃ v', [rfLow, rfHigh].find? (fun w => decide (w.key = rfHigh.key)) = some v' ∧
      mkFinalFromVerified v' ∈ (reconcileHeuristic 2 0 [rfLow, rfHigh] [] []).final_findings :=
  (reconcile_heuristic_amended 2 0 [rfLow, rfHigh] [] []).2.2.2.2 rfHigh
    (by simp)

end Databridge
